import Mathlib

/-!
Verification of the bursa single-pass parser (`src/parser/parser.ts`).

The TypeScript parser is embedded shallowly: the mutable `Parser` record
becomes a Lean structure threaded through every function, JS strings are
`String` / `List Char`, `Set`/`Map` become insertion-ordered lists, and the
float `value` of an amount is modelled as an exact rational (the number
scanner only ever feeds `parseFloat` digit strings with at most one dot).
Function and field names follow the source, except where Lean reserves the
word (`section` field is written `«section»`, `end` of a span is `stop`,
the JS helper `match` is `matchS`).
-/

/-- 1-based line/column position (`{line, col}` in the source). -/
structure Pos where
  line : Nat
  col : Nat
deriving DecidableEq, Repr

/-- Source span; `stop` is the position after the last consumed character
(`end` in `models.ts`). -/
structure Span where
  start : Pos
  stop : Pos
deriving DecidableEq, Repr

inductive Severity where
  | error
  | warning
deriving DecidableEq, Repr

/-- `Diagnostic` from `diagnostics.ts`. -/
structure Diagnostic where
  code : String
  message : String
  severity : Severity
  span : Span
deriving DecidableEq, Repr

def createDiagnostic (code message : String) (severity : Severity) (span : Span) :
    Diagnostic :=
  { code, message, severity, span }

def invalidToken (span : Span) (char : String) : Diagnostic :=
  createDiagnostic "E001" ("Invalid token or unexpected character: '" ++ char ++ "'")
    .error span

def malformedAmount (span : Span) (text : String) : Diagnostic :=
  createDiagnostic "E002" ("Malformed amount (bad number format): '" ++ text ++ "'")
    .error span

def invalidDateFormat (span : Span) (text : String) : Diagnostic :=
  createDiagnostic "E003" ("Invalid date format: '" ++ text ++ "'") .error span

def contentBeforeSectionMarker (span : Span) : Diagnostic :=
  createDiagnostic "E011" "Content before section marker" .error span

inductive Sign where
  | plus
  | minus
deriving DecidableEq, Repr

/-- `Amount` from `models.ts`; `sign : none` is the JS `null` (unspecified),
`value` is the exact rational denoted by the scanned number string. -/
structure Amount where
  sign : Option Sign
  value : ℚ
  commodity : String
  span : Span
deriving DecidableEq, Repr

structure AccountRef where
  path : List String
  raw : String
  span : Span
deriving DecidableEq, Repr

structure CategoryRef where
  path : List String
  raw : String
  span : Span
deriving DecidableEq, Repr

structure TagRef where
  path : List String
  raw : String
  span : Span
deriving DecidableEq, Repr

inductive Target where
  | category (ref : CategoryRef)
  | account (ref : AccountRef) (category : Option CategoryRef)
  | swap (amount : Amount)
deriving DecidableEq, Repr

inductive LedgerEntry where
  | transaction (date : String) (account : AccountRef) (unverified : Bool)
      (amount : Amount) (target : Target) (tags : List TagRef)
      (comment : Option String) (span : Span)
  | assertion (date : String) (account : AccountRef) (unverified : Bool)
      (amount : Amount) (comment : Option String) (span : Span)
deriving DecidableEq, Repr

structure BudgetEntry where
  period : String
  category : CategoryRef
  amount : Amount
  span : Span
deriving DecidableEq, Repr

/-- `Ledger.meta`: JS `Set`/`Map` are modelled as insertion-ordered lists. -/
structure Meta where
  commodities : List String
  aliases : List (String × String)
  untrackedPatterns : List String
deriving DecidableEq, Repr

structure Ledger where
  meta : Meta
  budget : List BudgetEntry
  ledger : List LedgerEntry
deriving DecidableEq, Repr

/-- JS `Set.add`: append if absent. -/
def setAdd (s : List String) (x : String) : List String :=
  if x ∈ s then s else s ++ [x]

/-- JS `Map.set`: overwrite in place if the key exists, else append. -/
def mapSet (m : List (String × String)) (k v : String) : List (String × String) :=
  if m.any (fun kv => kv.1 = k) then
    m.map (fun kv => if kv.1 = k then (k, v) else kv)
  else
    m ++ [(k, v)]

/-- JS `Map.get`: first (only) binding of the key. -/
def mapGet (m : List (String × String)) (k : String) : Option String :=
  (m.find? (fun kv => kv.1 = k)).map (fun kv => kv.2)

inductive SectionName where
  | META
  | BUDGET
  | LEDGER
deriving DecidableEq, Repr

/-- The mutable parser record from `parser.ts`; `«section»` is the
`section` field (a Lean keyword). -/
structure Parser where
  source : List Char
  pos : Nat
  line : Nat
  col : Nat
  «section» : Option SectionName
  currentPeriod : Option String
  currentAccount : Option AccountRef
  data : Ledger
  errors : List Diagnostic
  warnings : List Diagnostic
deriving Repr, DecidableEq

structure ParseResult where
  data : Ledger
  errors : List Diagnostic
  warnings : List Diagnostic
deriving Repr

def createLedger : Ledger :=
  { meta := { commodities := [], aliases := [], untrackedPatterns := [] }
    budget := []
    ledger := [] }

def createParser (source : List Char) : Parser :=
  { source
    pos := 0
    line := 1
    col := 1
    «section» := none
    currentPeriod := none
    currentAccount := none
    data := createLedger
    errors := []
    warnings := [] }

/-- JS `peek`: the character at `pos`, or `none` for the empty string `""`
returned at end of input. -/
def peek (p : Parser) : Option Char :=
  p.source.get? p.pos

/-- JS `advance`: always increments `pos` (even past the end, where the JS
version reads `""`); returns the consumed character. -/
def advance (p : Parser) : Parser × Option Char :=
  let ch := p.source.get? p.pos
  ({ p with
      pos := p.pos + 1
      line := if ch = some '\n' then p.line + 1 else p.line
      col := if ch = some '\n' then 1 else if ch = none then p.col else p.col + 1 },
   ch)

def atEnd (p : Parser) : Bool :=
  p.source.length ≤ p.pos

/-- `q` is `p` with only the cursor moved forward: the section/account/period
context, the data, and the diagnostics are untouched. -/
def CursorOnly (p q : Parser) : Prop :=
  q.source = p.source ∧ p.pos ≤ q.pos ∧ q.«section» = p.«section» ∧
  q.currentPeriod = p.currentPeriod ∧ q.currentAccount = p.currentAccount ∧
  q.data = p.data ∧ q.errors = p.errors ∧ q.warnings = p.warnings

/-- `q` is `p` with the cursor moved forward and possibly some errors
appended; everything else untouched. -/
def ErrOnly (p q : Parser) : Prop :=
  q.source = p.source ∧ p.pos ≤ q.pos ∧ q.«section» = p.«section» ∧
  q.currentPeriod = p.currentPeriod ∧ q.currentAccount = p.currentAccount ∧
  q.data = p.data ∧ (∃ es, q.errors = p.errors ++ es) ∧ q.warnings = p.warnings

theorem cursorOnly_refl (p : Parser) : CursorOnly p p := by
  simp [CursorOnly]

theorem cursorOnly_trans {p q r : Parser} (h1 : CursorOnly p q)
    (h2 : CursorOnly q r) : CursorOnly p r := by
  obtain ⟨a1, b1, c1, d1, e1, f1, g1, i1⟩ := h1
  obtain ⟨a2, b2, c2, d2, e2, f2, g2, i2⟩ := h2
  exact ⟨a2.trans a1, b1.trans b2, c2.trans c1, d2.trans d1, e2.trans e1,
    f2.trans f1, g2.trans g1, i2.trans i1⟩

theorem cursorOnly_errOnly {p q : Parser} (h : CursorOnly p q) : ErrOnly p q := by
  obtain ⟨a, b, c, d, e, f, g, i⟩ := h
  exact ⟨a, b, c, d, e, f, ⟨[], by simp [g]⟩, i⟩

theorem errOnly_trans {p q r : Parser} (h1 : ErrOnly p q) (h2 : ErrOnly q r) :
    ErrOnly p r := by
  obtain ⟨a1, b1, c1, d1, e1, f1, ⟨es1, g1⟩, i1⟩ := h1
  obtain ⟨a2, b2, c2, d2, e2, f2, ⟨es2, g2⟩, i2⟩ := h2
  exact ⟨a2.trans a1, b1.trans b2, c2.trans c1, d2.trans d1, e2.trans e1,
    f2.trans f1, ⟨es1 ++ es2, by simp [g2, g1]⟩, i2.trans i1⟩

theorem advance_cursorOnly (p : Parser) : CursorOnly p (advance p).1 := by
  simp [CursorOnly, advance]

/-- A successful `peek` means the cursor is in bounds. -/
theorem peek_lt {p : Parser} {c : Char} (h : peek p = some c) :
    p.pos < p.source.length :=
  (List.get?_eq_some.mp h).1

def skipHorizontalWhitespaceAux : Nat → Parser → Parser
  | 0, p => p
  | fuel + 1, p =>
    if atEnd p then p
    else if peek p = some ' ' ∨ peek p = some '\t' then
      skipHorizontalWhitespaceAux fuel (advance p).1
    else p

/-- `skipHorizontalWhitespace`; the loop is run on fuel that exceeds the
number of remaining characters, so it never cuts the loop short (each
iteration consumes one character). -/
def skipHorizontalWhitespace (p : Parser) : Parser :=
  skipHorizontalWhitespaceAux (p.source.length + 1 - p.pos) p

theorem skipHorizontalWhitespaceAux_cursorOnly (fuel : Nat) :
    ∀ p, CursorOnly p (skipHorizontalWhitespaceAux fuel p) := by
  induction fuel with
  | zero => exact cursorOnly_refl
  | succ n ih =>
    intro p
    unfold skipHorizontalWhitespaceAux
    split
    · exact cursorOnly_refl p
    · split
      · exact cursorOnly_trans (advance_cursorOnly p) (ih _)
      · exact cursorOnly_refl p

theorem skipHorizontalWhitespace_cursorOnly (p : Parser) :
    CursorOnly p (skipHorizontalWhitespace p) :=
  skipHorizontalWhitespaceAux_cursorOnly _ p

def skipToEOLAux : Nat → Parser → Parser
  | 0, p => p
  | fuel + 1, p =>
    if atEnd p then p
    else if peek p = some '\n' then p
    else skipToEOLAux fuel (advance p).1

def skipToEOL (p : Parser) : Parser :=
  skipToEOLAux (p.source.length + 1 - p.pos) p

theorem skipToEOLAux_cursorOnly (fuel : Nat) :
    ∀ p, CursorOnly p (skipToEOLAux fuel p) := by
  induction fuel with
  | zero => exact cursorOnly_refl
  | succ n ih =>
    intro p
    unfold skipToEOLAux
    split
    · exact cursorOnly_refl p
    · split
      · exact cursorOnly_refl p
      · exact cursorOnly_trans (advance_cursorOnly p) (ih _)

theorem skipToEOL_cursorOnly (p : Parser) : CursorOnly p (skipToEOL p) :=
  skipToEOLAux_cursorOnly _ p

def skipLine (p : Parser) : Parser :=
  let p1 := skipToEOL p
  if peek p1 = some '\n' then (advance p1).1 else p1

theorem skipLine_cursorOnly (p : Parser) : CursorOnly p (skipLine p) := by
  simp only [skipLine]
  split
  · exact cursorOnly_trans (skipToEOL_cursorOnly p) (advance_cursorOnly _)
  · exact skipToEOL_cursorOnly p

def skipBlankLinesAux : Nat → Parser → Parser
  | 0, p => p
  | fuel + 1, p =>
    if atEnd p then p
    else if peek (skipHorizontalWhitespace p) = some '\n' then
      skipBlankLinesAux fuel (advance (skipHorizontalWhitespace p)).1
    else p

/-- `skipBlankLines`: repeatedly consume lines whose non-whitespace part is
empty; the JS save/restore of the cursor on a non-blank line amounts to
returning the original `p`. -/
def skipBlankLines (p : Parser) : Parser :=
  skipBlankLinesAux (p.source.length + 1 - p.pos) p

theorem skipBlankLinesAux_cursorOnly (fuel : Nat) :
    ∀ p, CursorOnly p (skipBlankLinesAux fuel p) := by
  induction fuel with
  | zero => exact cursorOnly_refl
  | succ n ih =>
    intro p
    unfold skipBlankLinesAux
    split
    · exact cursorOnly_refl p
    · split
      · exact cursorOnly_trans (cursorOnly_trans
          (skipHorizontalWhitespace_cursorOnly p) (advance_cursorOnly _)) (ih _)
      · exact cursorOnly_refl p

theorem skipBlankLines_cursorOnly (p : Parser) : CursorOnly p (skipBlankLines p) :=
  skipBlankLinesAux_cursorOnly _ p

/-- JS `advance` run `n` times (the loop body of `match`). -/
def advanceN (p : Parser) : Nat → Parser
  | 0 => p
  | n + 1 => advanceN (advance p).1 n

/-- JS `match(p, expected)`: test `startsWith` at `pos`, consuming on success. -/
def matchS (p : Parser) (expected : List Char) : Parser × Bool :=
  if expected.isPrefixOf (p.source.drop p.pos) then
    (advanceN p expected.length, true)
  else
    (p, false)

def markStart (p : Parser) : Pos :=
  { line := p.line, col := p.col }

def spanFrom (p : Parser) (start : Pos) : Span :=
  { start, stop := { line := p.line, col := p.col } }

def addError (p : Parser) (diagnostic : Diagnostic) : Parser :=
  { p with errors := p.errors ++ [diagnostic] }

def addWarning (p : Parser) (diagnostic : Diagnostic) : Parser :=
  { p with warnings := p.warnings ++ [diagnostic] }

/-- `/[a-zA-Z0-9_]/` -/
def isIdentChar (c : Char) : Bool :=
  ('a' ≤ c && c ≤ 'z') || ('A' ≤ c && c ≤ 'Z') || ('0' ≤ c && c ≤ '9') || c = '_'

/-- `/[0-9]/` -/
def isDigitChar (c : Char) : Bool :=
  '0' ≤ c && c ≤ '9'

/-- `/[a-zA-Z]/` -/
def isLetterChar (c : Char) : Bool :=
  ('a' ≤ c && c ≤ 'z') || ('A' ≤ c && c ≤ 'Z')

/-- A JS regex test applied to the result of `peek`, which is `""` at end of
input (no regex class matches the empty string). -/
def testOpt (f : Char → Bool) : Option Char → Bool
  | some c => f c
  | none => false

/-- The fixed currency-symbol alphabet of the parser. -/
def currencySymbols : List Char :=
  ['$', '€', '£', '¥', '₹', '₽', '₩', '₪', '฿']

/-- JS `"$€£¥₹₽₩₪฿".includes(ch)` where `ch` comes from `peek`: crucially,
`includes("")` is `true` in JS, so `none` (end of input) passes the test. -/
def includesOpt : Option Char → Bool
  | some c => c ∈ currencySymbols
  | none => true

/-- JS `result += ch` where `ch` may be the empty string from `advance`/`peek`
past the end of input. -/
def pushOpt (s : String) : Option Char → String
  | some c => s.push c
  | none => s

/-- The string a JS variable holds after `const ch = advance(p)`/`peek(p)`:
the character, or `""` at end of input. -/
def optStr : Option Char → String
  | some c => String.singleton c
  | none => ""

def parseIdentifierAux : Nat → Parser → String → Parser × String
  | 0, p, result => (p, result)
  | fuel + 1, p, result =>
    if atEnd p then (p, result)
    else if testOpt isIdentChar (peek p) then
      parseIdentifierAux fuel (advance p).1 (pushOpt result (peek p))
    else (p, result)

/-- `parseIdentifier`: maximal run of `[a-zA-Z0-9_]`. -/
def parseIdentifier (p : Parser) : Parser × String :=
  parseIdentifierAux (p.source.length + 1 - p.pos) p ""

/-- `parseSymbol`: one currency symbol if present, else an identifier.
At end of input the JS `includes("")` quirk makes it consume the phantom
empty character and return `""`. -/
def parseSymbol (p : Parser) : Parser × String :=
  if includesOpt (peek p) then
    let (p1, ch) := advance p
    (p1, optStr ch)
  else
    parseIdentifier p

theorem advanceN_cursorOnly (n : Nat) (p : Parser) : CursorOnly p (advanceN p n) := by
  induction n generalizing p with
  | zero => exact cursorOnly_refl p
  | succ n ih =>
    exact cursorOnly_trans (advance_cursorOnly p) (ih (advance p).1)

theorem matchS_cursorOnly (p : Parser) (e : List Char) :
    CursorOnly p (matchS p e).1 := by
  unfold matchS
  split
  · exact advanceN_cursorOnly e.length p
  · exact cursorOnly_refl p

theorem addError_errOnly (p : Parser) (d : Diagnostic) : ErrOnly p (addError p d) := by
  refine ⟨rfl, le_refl _, rfl, rfl, rfl, rfl, ⟨[d], ?_⟩, rfl⟩
  simp [addError]

theorem parseIdentifierAux_cursorOnly (fuel : Nat) :
    ∀ p s, CursorOnly p (parseIdentifierAux fuel p s).1 := by
  induction fuel with
  | zero => exact fun p s => cursorOnly_refl p
  | succ n ih =>
    intro p s
    unfold parseIdentifierAux
    split
    · exact cursorOnly_refl p
    · split
      · exact cursorOnly_trans (advance_cursorOnly p) (ih _ _)
      · exact cursorOnly_refl p

theorem parseIdentifier_cursorOnly (p : Parser) :
    CursorOnly p (parseIdentifier p).1 :=
  parseIdentifierAux_cursorOnly _ p ""

theorem parseSymbol_cursorOnly (p : Parser) : CursorOnly p (parseSymbol p).1 := by
  unfold parseSymbol
  split
  · exact advance_cursorOnly p
  · exact parseIdentifier_cursorOnly p

/-- The loop of `parseHierarchicalName`: while the cursor is on `:` and the
character after it is an identifier character, consume the `:` and another
identifier. -/
def parseHierarchicalNameAux : Nat → Parser → String → Parser × String
  | 0, p, result => (p, result)
  | fuel + 1, p, result =>
    if peek p = some ':' then
      if testOpt isIdentChar (p.source.get? (p.pos + 1)) then
        parseHierarchicalNameAux fuel (parseIdentifier (advance p).1).1
          (pushOpt result (advance p).2 ++ (parseIdentifier (advance p).1).2)
      else (p, result)
    else (p, result)

def parseHierarchicalName (p : Parser) : Parser × String :=
  let (p1, result) := parseIdentifier p
  parseHierarchicalNameAux (p1.source.length + 1 - p1.pos) p1 result

theorem parseHierarchicalNameAux_cursorOnly (fuel : Nat) :
    ∀ p s, CursorOnly p (parseHierarchicalNameAux fuel p s).1 := by
  induction fuel with
  | zero => exact fun p s => cursorOnly_refl p
  | succ n ih =>
    intro p s
    unfold parseHierarchicalNameAux
    split
    · split
      · exact cursorOnly_trans (cursorOnly_trans (advance_cursorOnly p)
          (parseIdentifier_cursorOnly _)) (ih _ _)
      · exact cursorOnly_refl p
    · exact cursorOnly_refl p

theorem parseHierarchicalName_cursorOnly (p : Parser) :
    CursorOnly p (parseHierarchicalName p).1 := by
  unfold parseHierarchicalName
  exact cursorOnly_trans (parseIdentifier_cursorOnly p)
    (parseHierarchicalNameAux_cursorOnly _ _ _)

/-- `parseSectionMarker`: `>>>` then an identifier; `META`/`BUDGET`/`LEDGER`
switch the section (resetting period and account context), anything else is
`E001` with the section untouched. -/
def parseSectionMarker (p : Parser) : Parser :=
  let start := markStart p
  let (p1, ok) := matchS p ['>', '>', '>']
  if !ok then
    skipLine (addError p1
      (createDiagnostic "E001" "Expected '>>>'" .error (spanFrom p1 start)))
  else
    let p2 := skipHorizontalWhitespace p1
    let nameStart := markStart p2
    let (p3, name) := parseIdentifier p2
    if name = "META" then
      skipLine { p3 with
        «section» := some SectionName.META
        currentPeriod := none
        currentAccount := none }
    else if name = "BUDGET" then
      skipLine { p3 with
        «section» := some SectionName.BUDGET
        currentPeriod := none
        currentAccount := none }
    else if name = "LEDGER" then
      skipLine { p3 with
        «section» := some SectionName.LEDGER
        currentPeriod := none
        currentAccount := none }
    else
      skipLine (addError p3 (createDiagnostic "E001"
        ("Unknown section '" ++ name ++ "'") .error (spanFrom p3 nameStart)))

/-- `parseMetaDirective`: `commodity:`, `alias:`, `untracked:`; anything else
is `E001 unknown directive`. The `alias` arm silently skips the line when the
symbol or the commodity is empty (JS truthiness guard). -/
def parseMetaDirective (p : Parser) : Parser :=
  let start := markStart p
  let (p1, keyword) := parseIdentifier p
  let (p2, okColon) := matchS p1 [':']
  if !okColon then
    skipLine (addError p2
      (createDiagnostic "E001" "Expected ':'" .error (spanFrom p2 start)))
  else
    let p3 := skipHorizontalWhitespace p2
    if keyword = "commodity" then
      let (p4, commodity) := parseIdentifier p3
      if commodity ≠ "" then
        skipLine { p4 with data := { p4.data with meta := { p4.data.meta with
          commodities := setAdd p4.data.meta.commodities commodity } } }
      else
        skipLine (addError p4 (createDiagnostic "E001" "Expected commodity name"
          .error (spanFrom p4 start)))
    else if keyword = "alias" then
      let (p4, symbol) := parseSymbol p3
      let p5 := skipHorizontalWhitespace p4
      let (p6, okEq) := matchS p5 ['=']
      if !okEq then
        skipLine (addError p6
          (createDiagnostic "E001" "Expected '='" .error (spanFrom p6 (markStart p6))))
      else
        let p7 := skipHorizontalWhitespace p6
        let (p8, commodity) := parseIdentifier p7
        if symbol ≠ "" ∧ commodity ≠ "" then
          skipLine { p8 with data := { p8.data with meta := { p8.data.meta with
            aliases := mapSet p8.data.meta.aliases symbol commodity
            commodities := setAdd p8.data.meta.commodities commodity } } }
        else
          skipLine p8
    else if keyword = "untracked" then
      let (p4, okAt) := matchS p3 ['@']
      if !okAt then
        skipLine (addError p4
          (createDiagnostic "E001" "Expected '@'" .error (spanFrom p4 (markStart p4))))
      else if peek p4 = some '*' then
        let p5 := (advance p4).1
        skipLine { p5 with data := { p5.data with meta := { p5.data.meta with
          untrackedPatterns := p5.data.meta.untrackedPatterns ++ ["@*"] } } }
      else
        let (p5, name) := parseHierarchicalName p4
        if peek p5 = some ':' then
          let p6 := (advance p5).1
          if peek p6 = some '*' then
            let p7 := (advance p6).1
            skipLine { p7 with data := { p7.data with meta := { p7.data.meta with
              untrackedPatterns := p7.data.meta.untrackedPatterns ++
                ["@" ++ name ++ ":*"] } } }
          else
            skipLine { p6 with data := { p6.data with meta := { p6.data.meta with
              untrackedPatterns := p6.data.meta.untrackedPatterns ++
                ["@" ++ name] } } }
        else
          skipLine { p5 with data := { p5.data with meta := { p5.data.meta with
            untrackedPatterns := p5.data.meta.untrackedPatterns ++
              ["@" ++ name] } } }
    else
      skipLine (addError p3 (createDiagnostic "E001"
        ("Unknown directive '" ++ keyword ++ "'") .error (spanFrom p3 start)))

/-- One digit-run of `parsePeriod`/`parseDate`: read exactly `n` digits; on a
non-digit (or end of input) return the text read so far plus the offending
character (JS builds `result + ch` for the error message) and `false`. -/
def readDigits : Nat → Parser → String → Parser × String × Bool
  | 0, p, acc => (p, acc, true)
  | n + 1, p, acc =>
    if testOpt isDigitChar (peek p) then
      readDigits n (advance p).1 (pushOpt acc (peek p))
    else
      (p, pushOpt acc (peek p), false)

/-- `parsePeriod`: fixed shape `DDDD-DD`; failures emit `E001 invalid token`. -/
def parsePeriod (p : Parser) : Parser × Option String :=
  let start := markStart p
  let (p1, acc1, ok1) := readDigits 4 p ""
  if !ok1 then (addError p1 (invalidToken (spanFrom p1 start) acc1), none)
  else if peek p1 ≠ some '-' then
    (addError p1 (invalidToken (spanFrom p1 start) acc1), none)
  else
    let (p2, acc2, ok2) := readDigits 2 (advance p1).1 (acc1.push '-')
    if !ok2 then (addError p2 (invalidToken (spanFrom p2 start) acc2), none)
    else (p2, some acc2)

/-- `parseDate`: fixed shape `DDDD-DD-DD`; failures emit `E003`. -/
def parseDate (p : Parser) : Parser × Option String :=
  let start := markStart p
  let (p1, a1, ok1) := readDigits 4 p ""
  if !ok1 then (addError p1 (invalidDateFormat (spanFrom p1 start) a1), none)
  else if peek p1 ≠ some '-' then
    (addError p1 (invalidDateFormat (spanFrom p1 start) a1), none)
  else
    let (p2, a2, ok2) := readDigits 2 (advance p1).1 (a1.push '-')
    if !ok2 then (addError p2 (invalidDateFormat (spanFrom p2 start) a2), none)
    else if peek p2 ≠ some '-' then
      (addError p2 (invalidDateFormat (spanFrom p2 start) a2), none)
    else
      let (p3, a3, ok3) := readDigits 2 (advance p2).1 (a2.push '-')
      if !ok3 then (addError p3 (invalidDateFormat (spanFrom p3 start) a3), none)
      else (p3, some a3)

/-- `parseCategoryRef`: `&` then a non-empty hierarchical name. -/
def parseCategoryRef (p : Parser) : Parser × Option CategoryRef :=
  let start := markStart p
  let (p1, ok) := matchS p ['&']
  if !ok then (p1, none)
  else
    let (p2, name) := parseHierarchicalName p1
    if name = "" then
      (addError p2 (invalidToken (spanFrom p2 start) "&"), none)
    else
      (p2, some { path := name.splitOn ":", raw := "&" ++ name, span := spanFrom p2 start })

/-- `parseAccountRef`: `@` then a non-empty hierarchical name. -/
def parseAccountRef (p : Parser) : Parser × Option AccountRef :=
  let start := markStart p
  let (p1, ok) := matchS p ['@']
  if !ok then (p1, none)
  else
    let (p2, name) := parseHierarchicalName p1
    if name = "" then
      (addError p2 (invalidToken (spanFrom p2 start) "@"), none)
    else
      (p2, some { path := name.splitOn ":", raw := "@" ++ name, span := spanFrom p2 start })

/-- `parseTagRef`: `#` then a non-empty hierarchical name. -/
def parseTagRef (p : Parser) : Parser × Option TagRef :=
  let start := markStart p
  let (p1, ok) := matchS p ['#']
  if !ok then (p1, none)
  else
    let (p2, name) := parseHierarchicalName p1
    if name = "" then
      (addError p2 (invalidToken (spanFrom p2 start) "#"), none)
    else
      (p2, some { path := name.splitOn ":", raw := "#" ++ name, span := spanFrom p2 start })

/-- `resolveCommodity`: alias lookup at parse time, identity when undeclared. -/
def resolveCommodity (p : Parser) (symbol : String) : String :=
  (mapGet p.data.meta.aliases symbol).getD symbol

def scanNumberAux : Nat → Parser → String → Bool → Parser × String
  | 0, p, acc, _ => (p, acc)
  | fuel + 1, p, acc, seenDot =>
    if atEnd p then (p, acc)
    else if testOpt isDigitChar (peek p) then
      scanNumberAux fuel (advance p).1 (pushOpt acc (peek p)) seenDot
    else if peek p = some '.' ∧ seenDot = false then
      scanNumberAux fuel (advance p).1 (acc.push '.') true
    else (p, acc)

/-- The number scanner of `parseAmount`: digits with at most one `.`. -/
def scanNumber (p : Parser) (acc : String) (seenDot : Bool) : Parser × String :=
  scanNumberAux (p.source.length + 1 - p.pos) p acc seenDot

def digitVal (c : Char) : Nat := c.toNat - '0'.toNat

def natOfDigits (l : List Char) : Nat := l.foldl (fun a c => a * 10 + digitVal c) 0

/-- JS `parseFloat` followed by the `Number.isNaN` check, restricted to the
strings the number scanner can produce (digits with at most one dot):
`NaN` exactly when the string contains no digit. -/
def parseFloatQ (s : List Char) : Option ℚ :=
  if s.any isDigitChar then
    let ip := s.takeWhile (fun c => c ≠ '.')
    let fp := (s.dropWhile (fun c => c ≠ '.')).drop 1
    some ((natOfDigits ip : ℚ) + (natOfDigits fp : ℚ) / ((10 : ℚ) ^ fp.length))
  else none

/-- JS truthiness of a `string | null` variable: `null` and `""` are falsy. -/
def strTruthy : Option String → Bool
  | none => false
  | some s => s ≠ ""

/-- `parseAmount`: optional sign, optional leading currency symbol, number,
then (if no leading symbol) optional trailing currency symbol or identifier;
missing commodity is `E002`. Inherits the JS `includes("")` quirk at end of
input via `includesOpt`. -/
def parseAmount (p : Parser) : Parser × Option Amount :=
  let start := markStart p
  let (p1, sign) : Parser × Option Sign :=
    if peek p = some '+' then ((advance p).1, some Sign.plus)
    else if peek p = some '-' then ((advance p).1, some Sign.minus)
    else (p, none)
  let ch := peek p1
  let (p2, commodity) : Parser × Option String :=
    if includesOpt ch then
      let (q, symbol) := advance p1
      (q, some (resolveCommodity q (optStr symbol)))
    else (p1, none)
  let numStart := markStart p2
  let (p3, numStr) := scanNumber p2 "" false
  if numStr = "" ∨ numStr = "." then (p3, none)
  else
    match parseFloatQ numStr.data with
    | none => (addError p3 (malformedAmount (spanFrom p3 numStart) numStr), none)
    | some value =>
      let (p4, commodity2) : Parser × Option String :=
        if strTruthy commodity = false then
          let q := skipHorizontalWhitespace p3
          let afterNum := peek q
          if includesOpt afterNum then
            let (q2, c2) := advance q
            (q2, some (resolveCommodity q2 (optStr c2)))
          else if testOpt isLetterChar afterNum then
            let (q2, ident) := parseIdentifier q
            (q2, some (resolveCommodity q2 ident))
          else (q, commodity)
        else (p3, commodity)
      if strTruthy commodity2 = false then
        (addError p4 (malformedAmount (spanFrom p4 start) numStr), none)
      else
        (p4, some { sign := sign
                    value := value
                    commodity := commodity2.getD ""
                    span := spanFrom p4 start })

/-- `parseTarget`: one-character lookahead deciding category / account
(with optional category) / swap. -/
def parseTarget (p : Parser) : Parser × Option Target :=
  let ch := peek p
  if ch = some '&' then
    match parseCategoryRef p with
    | (p1, some ref) => (p1, some (Target.category ref))
    | (p1, none) => (p1, none)
  else if ch = some '@' then
    match parseAccountRef p with
    | (p1, none) => (p1, none)
    | (p1, some ref) =>
      let p2 := skipHorizontalWhitespace p1
      if peek p2 = some '&' then
        let (p3, category) := parseCategoryRef p2
        (p3, some (Target.account ref category))
      else
        (p2, some (Target.account ref none))
  else if ch = some '+' ∨ ch = some '-' ∨ testOpt isDigitChar ch ∨ includesOpt ch then
    match parseAmount p with
    | (p1, some amount) => (p1, some (Target.swap amount))
    | (p1, none) => (p1, none)
  else (p, none)

def collectToEOLAux : Nat → Parser → String → Parser × String
  | 0, p, acc => (p, acc)
  | fuel + 1, p, acc =>
    if atEnd p then (p, acc)
    else if peek p = some '\n' then (p, acc)
    else collectToEOLAux fuel (advance p).1 (pushOpt acc (peek p))

/-- The tail-collecting loop of `parseComment`. -/
def collectToEOL (p : Parser) (acc : String) : Parser × String :=
  collectToEOLAux (p.source.length + 1 - p.pos) p acc

/-- `parseComment`: `;`, horizontal whitespace, then the rest of the line,
trimmed; an empty comment is `none`. -/
def parseComment (p : Parser) : Parser × Option String :=
  if peek p ≠ some ';' then (p, none)
  else
    let p1 := skipHorizontalWhitespace (advance p).1
    let (p2, result) := collectToEOL p1 ""
    (p2, if result.trim = "" then none else some result.trim)

/-- `parseBudgetLine`: a digit starts a period header, `&` a budget entry
(requiring a current period), anything else is `E001`. -/
def parseBudgetLine (p : Parser) : Parser :=
  let start := markStart p
  let ch := peek p
  if testOpt isDigitChar ch then
    let (p1, period) := parsePeriod p
    match period with
    | some s => skipLine { p1 with currentPeriod := some s }
    | none => skipLine p1
  else if ch = some '&' then
    match p.currentPeriod with
    | none => skipLine (addError p (invalidToken (spanFrom p start) (optStr ch)))
    | some period =>
      let (p1, categoryRef) := parseCategoryRef p
      match categoryRef with
      | none => skipLine p1
      | some category =>
        let p2 := skipHorizontalWhitespace p1
        let (p3, amount) := parseAmount p2
        match amount with
        | none => skipLine (addError p3 (malformedAmount (spanFrom p3 (markStart p3)) ""))
        | some amount =>
          skipLine { p3 with data := { p3.data with budget := p3.data.budget ++
            [{ period := period
               category := category
               amount := amount
               span := spanFrom p3 start }] } }
  else
    skipLine (addError p (invalidToken (spanFrom p start) (optStr ch)))

/-- Looking at a character means the rest of the source starts with it. -/
theorem drop_eq_cons_of_peek {p : Parser} {c : Char} (h : peek p = some c) :
    p.source.drop p.pos = c :: p.source.drop (p.pos + 1) := by
  obtain ⟨hlt, hg⟩ := List.get?_eq_some.mp h
  rw [List.drop_eq_getElem_cons hlt]
  simp [← hg, List.get_eq_getElem]

/-- A one-character `match` whose character is under the cursor succeeds and
is exactly one `advance`. -/
theorem matchS_single_of_peek {p : Parser} {c : Char} (h : peek p = some c) :
    matchS p [c] = ((advance p).1, true) := by
  unfold matchS
  rw [drop_eq_cons_of_peek h]
  simp [List.isPrefixOf, advanceN]

/-- `parseTagRef` on a `#` consumes at least the `#` and never touches the
source. -/
theorem parseTagRef_progress {p : Parser} (h : peek p = some '#') :
    (parseTagRef p).1.source = p.source ∧ p.pos < (parseTagRef p).1.pos := by
  have hh := parseHierarchicalName_cursorOnly (advance p).1
  have hsrc : (parseHierarchicalName (advance p).1).1.source = p.source := by
    rw [hh.1]; simp [advance]
  have hpos : p.pos + 1 ≤ (parseHierarchicalName (advance p).1).1.pos := by
    have h2 := hh.2.1
    simpa [advance] using h2
  unfold parseTagRef
  rw [matchS_single_of_peek h]
  by_cases hname : (parseHierarchicalName (advance p).1).2 = "" <;>
    simp [hname, addError, hsrc] <;> omega

def parseTagsAux : Nat → Parser → List TagRef → Parser × List TagRef
  | 0, p, tags => (p, tags)
  | fuel + 1, p, tags =>
    if peek (skipHorizontalWhitespace p) = some '#' then
      match parseTagRef (skipHorizontalWhitespace p) with
      | (p2, some tag) => parseTagsAux fuel p2 (tags ++ [tag])
      | (p2, none) => parseTagsAux fuel p2 tags
    else (skipHorizontalWhitespace p, tags)

/-- The tag loop of `parseLedgerLine`: skip whitespace, and as long as a `#`
follows, parse a tag ref, keeping it when it parses. -/
def parseTags (p : Parser) (tags : List TagRef) : Parser × List TagRef :=
  parseTagsAux (p.source.length + 1 - p.pos) p tags

theorem parseTagsAux_snoc (fuel : Nat) :
    ∀ p tags, ∃ more, (parseTagsAux fuel p tags).2 = tags ++ more := by
  induction fuel with
  | zero => exact fun p tags => ⟨[], by simp [parseTagsAux]⟩
  | succ n ih =>
    intro p tags
    unfold parseTagsAux
    split
    · split
      · obtain ⟨m, hm⟩ := ih _ (tags ++ [_])
        rename_i tag _
        exact ⟨[tag] ++ m, by rw [hm, List.append_assoc]⟩
      · exact ih _ tags
    · exact ⟨[], by simp⟩

theorem parseTags_snoc (p : Parser) (tags : List TagRef) :
    ∃ more, (parseTags p tags).2 = tags ++ more :=
  parseTagsAux_snoc _ p tags

/-- `parseLedgerLine`: `@` headers set the account context; `?`/digit lines
are entries (assertion after `==`, else transaction); anything else `E001`. -/
def parseLedgerLine (p : Parser) : Parser :=
  let start := markStart p
  let ch := peek p
  if ch = some '@' then
    let (p1, accountRef) := parseAccountRef p
    match accountRef with
    | some r => skipLine { p1 with currentAccount := some r }
    | none => skipLine p1
  else if ch = some '?' ∨ testOpt isDigitChar ch then
    match p.currentAccount with
    | none => skipLine (addError p (invalidToken (spanFrom p start) (optStr ch)))
    | some account =>
      let (p1, unverified) : Parser × Bool :=
        if ch = some '?' then (skipHorizontalWhitespace (advance p).1, true)
        else (p, false)
      let (p2, dateRes) := parseDate p1
      match dateRes with
      | none => skipLine p2
      | some date =>
        let p3 := skipHorizontalWhitespace p2
        if peek p3 = some '=' ∧ p3.source.get? (p3.pos + 1) = some '=' then
          let p4 := (advance (advance p3).1).1
          let p5 := skipHorizontalWhitespace p4
          let (p6, amountRes) := parseAmount p5
          match amountRes with
          | none => skipLine (addError p6 (malformedAmount (spanFrom p6 (markStart p6)) ""))
          | some amount =>
            let p7 := skipHorizontalWhitespace p6
            let (p8, comment) := parseComment p7
            skipLine { p8 with data := { p8.data with ledger := p8.data.ledger ++
              [LedgerEntry.assertion date account unverified amount comment
                (spanFrom p8 start)] } }
        else
          let (p4, amountRes) := parseAmount p3
          match amountRes with
          | none => skipLine (addError p4 (malformedAmount (spanFrom p4 (markStart p4)) ""))
          | some amount =>
            let p5 := skipHorizontalWhitespace p4
            let (p6, targetRes) := parseTarget p5
            match targetRes with
            | none =>
              skipLine (addError p6 (invalidToken (spanFrom p6 (markStart p6))
                (optStr (peek p6))))
            | some target =>
              let (p7, tags) := parseTags p6 []
              let p8 := skipHorizontalWhitespace p7
              let (p9, comment) := parseComment p8
              skipLine { p9 with data := { p9.data with ledger := p9.data.ledger ++
                [LedgerEntry.transaction date account unverified amount target tags
                  comment (spanFrom p9 start)] } }
  else
    skipLine (addError p (invalidToken (spanFrom p start) (optStr ch)))

/-- The dispatcher loop of `parse`, with fuel (one unit per source line; each
iteration of the JS `while` consumes at least one character, so
`source.length + 1` units never run out). -/
def parseLoop : Nat → Parser → Parser
  | 0, p => p
  | fuel + 1, p =>
    if atEnd p then p
    else
      let p1 := skipBlankLines p
      if atEnd p1 then p1
      else
        let p2 := skipHorizontalWhitespace p1
        let ch := peek p2
        if ch = some ';' then parseLoop fuel (skipLine p2)
        else if ch = some '>' then parseLoop fuel (parseSectionMarker p2)
        else
          match p2.«section» with
          | some SectionName.META => parseLoop fuel (parseMetaDirective p2)
          | some SectionName.BUDGET => parseLoop fuel (parseBudgetLine p2)
          | some SectionName.LEDGER => parseLoop fuel (parseLedgerLine p2)
          | none =>
            let start := markStart p2
            let p3 := skipLine p2
            parseLoop fuel (addError p3 (contentBeforeSectionMarker (spanFrom p3 start)))

/-- The public `parse` entry point. -/
def parse (source : String) : ParseResult :=
  let p := parseLoop (source.data.length + 1) (createParser source.data)
  { data := p.data, errors := p.errors, warnings := p.warnings }

theorem readDigits_cursorOnly (n : Nat) (p : Parser) (acc : String) :
    CursorOnly p (readDigits n p acc).1 := by
  induction n generalizing p acc with
  | zero => exact cursorOnly_refl p
  | succ n ih =>
    unfold readDigits
    split
    · exact cursorOnly_trans (advance_cursorOnly p) (ih _ _)
    · exact cursorOnly_refl p


theorem cursorOnly_addError {p q : Parser} (h : CursorOnly p q) (d : Diagnostic) :
    ErrOnly p (addError q d) :=
  errOnly_trans (cursorOnly_errOnly h) (addError_errOnly q d)

theorem parsePeriod_errOnly (p : Parser) : ErrOnly p (parsePeriod p).1 := by
  simp only [parsePeriod]
  have h1 := readDigits_cursorOnly 4 p ""
  have h2 : CursorOnly p (readDigits 2 (advance (readDigits 4 p "").1).1
      ((readDigits 4 p "").2.1.push '-')).1 :=
    cursorOnly_trans h1 (cursorOnly_trans (advance_cursorOnly _)
      (readDigits_cursorOnly _ _ _))
  split
  · exact cursorOnly_addError h1 _
  · split
    · exact cursorOnly_addError h1 _
    · split
      · exact cursorOnly_addError h2 _
      · exact cursorOnly_errOnly h2

theorem parseDate_errOnly (p : Parser) : ErrOnly p (parseDate p).1 := by
  simp only [parseDate]
  have h1 := readDigits_cursorOnly 4 p ""
  have h2 : CursorOnly p (readDigits 2 (advance (readDigits 4 p "").1).1
      ((readDigits 4 p "").2.1.push '-')).1 :=
    cursorOnly_trans h1 (cursorOnly_trans (advance_cursorOnly _)
      (readDigits_cursorOnly _ _ _))
  have h3 : CursorOnly p (readDigits 2
      (advance (readDigits 2 (advance (readDigits 4 p "").1).1
        ((readDigits 4 p "").2.1.push '-')).1).1
      ((readDigits 2 (advance (readDigits 4 p "").1).1
        ((readDigits 4 p "").2.1.push '-')).2.1.push '-')).1 :=
    cursorOnly_trans h2 (cursorOnly_trans (advance_cursorOnly _)
      (readDigits_cursorOnly _ _ _))
  split
  · exact cursorOnly_addError h1 _
  · split
    · exact cursorOnly_addError h1 _
    · split
      · exact cursorOnly_addError h2 _
      · split
        · exact cursorOnly_addError h2 _
        · split
          · exact cursorOnly_addError h3 _
          · exact cursorOnly_errOnly h3

theorem parseCategoryRef_errOnly (p : Parser) : ErrOnly p (parseCategoryRef p).1 := by
  simp only [parseCategoryRef]
  have h1 := matchS_cursorOnly p ['&']
  have h2 : CursorOnly p (parseHierarchicalName (matchS p ['&']).1).1 :=
    cursorOnly_trans h1 (parseHierarchicalName_cursorOnly _)
  split
  · exact cursorOnly_errOnly h1
  · split
    · exact cursorOnly_addError h2 _
    · exact cursorOnly_errOnly h2

theorem parseAccountRef_errOnly (p : Parser) : ErrOnly p (parseAccountRef p).1 := by
  simp only [parseAccountRef]
  have h1 := matchS_cursorOnly p ['@']
  have h2 : CursorOnly p (parseHierarchicalName (matchS p ['@']).1).1 :=
    cursorOnly_trans h1 (parseHierarchicalName_cursorOnly _)
  split
  · exact cursorOnly_errOnly h1
  · split
    · exact cursorOnly_addError h2 _
    · exact cursorOnly_errOnly h2

theorem parseTagRef_errOnly (p : Parser) : ErrOnly p (parseTagRef p).1 := by
  simp only [parseTagRef]
  have h1 := matchS_cursorOnly p ['#']
  have h2 : CursorOnly p (parseHierarchicalName (matchS p ['#']).1).1 :=
    cursorOnly_trans h1 (parseHierarchicalName_cursorOnly _)
  split
  · exact cursorOnly_errOnly h1
  · split
    · exact cursorOnly_addError h2 _
    · exact cursorOnly_errOnly h2

theorem scanNumberAux_cursorOnly (fuel : Nat) :
    ∀ p acc seenDot, CursorOnly p (scanNumberAux fuel p acc seenDot).1 := by
  induction fuel with
  | zero => exact fun p acc seenDot => cursorOnly_refl p
  | succ n ih =>
    intro p acc seenDot
    unfold scanNumberAux
    split
    · exact cursorOnly_refl p
    · split
      · exact cursorOnly_trans (advance_cursorOnly p) (ih _ _ _)
      · split
        · exact cursorOnly_trans (advance_cursorOnly p) (ih _ _ _)
        · exact cursorOnly_refl p

theorem scanNumber_cursorOnly (p : Parser) (acc : String) (seenDot : Bool) :
    CursorOnly p (scanNumber p acc seenDot).1 :=
  scanNumberAux_cursorOnly _ p acc seenDot

theorem parseAmount_errOnly (p : Parser) : ErrOnly p (parseAmount p).1 := by
  simp only [parseAmount]
  generalize hS : (if peek p = some '+' then ((advance p).1, some Sign.plus)
      else if peek p = some '-' then ((advance p).1, some Sign.minus)
      else (p, none)) = S
  have h1 : CursorOnly p S.1 := by
    rw [← hS]
    split
    · exact advance_cursorOnly p
    · split
      · exact advance_cursorOnly p
      · exact cursorOnly_refl p
  generalize hC : (if includesOpt (peek S.1) = true then
      ((advance S.1).1, some (resolveCommodity (advance S.1).1 (optStr (advance S.1).2)))
      else (S.1, none)) = C
  have h2 : CursorOnly p C.1 := by
    rw [← hC]
    split
    · exact cursorOnly_trans h1 (advance_cursorOnly _)
    · exact h1
  generalize hN : scanNumber C.1 "" false = N
  have h3 : CursorOnly p N.1 := by
    rw [← hN]
    exact cursorOnly_trans h2 (scanNumber_cursorOnly _ _ _)
  split
  · exact cursorOnly_errOnly h3
  · split
    · exact cursorOnly_addError h3 _
    · generalize hD : (if strTruthy C.2 = false then
          (if includesOpt (peek (skipHorizontalWhitespace N.1)) = true then
            ((advance (skipHorizontalWhitespace N.1)).1,
              some (resolveCommodity (advance (skipHorizontalWhitespace N.1)).1
                (optStr (advance (skipHorizontalWhitespace N.1)).2)))
          else if testOpt isLetterChar (peek (skipHorizontalWhitespace N.1)) = true then
            ((parseIdentifier (skipHorizontalWhitespace N.1)).1,
              some (resolveCommodity (parseIdentifier (skipHorizontalWhitespace N.1)).1
                (parseIdentifier (skipHorizontalWhitespace N.1)).2))
          else (skipHorizontalWhitespace N.1, C.2))
        else (N.1, C.2)) = D
      have h4 : CursorOnly p D.1 := by
        rw [← hD]
        split
        · split
          · exact cursorOnly_trans h3 (cursorOnly_trans
              (skipHorizontalWhitespace_cursorOnly _) (advance_cursorOnly _))
          · split
            · exact cursorOnly_trans h3 (cursorOnly_trans
                (skipHorizontalWhitespace_cursorOnly _) (parseIdentifier_cursorOnly _))
            · exact cursorOnly_trans h3 (skipHorizontalWhitespace_cursorOnly _)
        · exact h3
      split
      · exact cursorOnly_addError h4 _
      · exact cursorOnly_errOnly h4

theorem parseTarget_errOnly (p : Parser) : ErrOnly p (parseTarget p).1 := by
  simp only [parseTarget]
  split
  · split <;> rename_i hE
    · have h := parseCategoryRef_errOnly p
      rw [hE] at h
      exact h
    · have h := parseCategoryRef_errOnly p
      rw [hE] at h
      exact h
  · split
    · split <;> rename_i hE
      · have h := parseAccountRef_errOnly p
        rw [hE] at h
        exact h
      · rename_i p1 ref
        have h : ErrOnly p p1 := by
          have hh := parseAccountRef_errOnly p
          rw [hE] at hh
          exact hh
        split
        · exact errOnly_trans h (errOnly_trans
            (cursorOnly_errOnly (skipHorizontalWhitespace_cursorOnly p1))
            (parseCategoryRef_errOnly _))
        · exact errOnly_trans h
            (cursorOnly_errOnly (skipHorizontalWhitespace_cursorOnly p1))
    · split
      · split <;> rename_i hE
        · have h := parseAmount_errOnly p
          rw [hE] at h
          exact h
        · have h := parseAmount_errOnly p
          rw [hE] at h
          exact h
      · exact cursorOnly_errOnly (cursorOnly_refl p)

theorem collectToEOLAux_cursorOnly (fuel : Nat) :
    ∀ p acc, CursorOnly p (collectToEOLAux fuel p acc).1 := by
  induction fuel with
  | zero => exact fun p acc => cursorOnly_refl p
  | succ n ih =>
    intro p acc
    unfold collectToEOLAux
    split
    · exact cursorOnly_refl p
    · split
      · exact cursorOnly_refl p
      · exact cursorOnly_trans (advance_cursorOnly p) (ih _ _)

theorem collectToEOL_cursorOnly (p : Parser) (acc : String) :
    CursorOnly p (collectToEOL p acc).1 :=
  collectToEOLAux_cursorOnly _ p acc

theorem parseComment_cursorOnly (p : Parser) : CursorOnly p (parseComment p).1 := by
  simp only [parseComment]
  split
  · exact cursorOnly_refl p
  · exact cursorOnly_trans (advance_cursorOnly p) (cursorOnly_trans
      (skipHorizontalWhitespace_cursorOnly _) (collectToEOL_cursorOnly _ _))

theorem parseTagsAux_errOnly (fuel : Nat) :
    ∀ p tags, ErrOnly p (parseTagsAux fuel p tags).1 := by
  induction fuel with
  | zero => exact fun p tags => cursorOnly_errOnly (cursorOnly_refl p)
  | succ n ih =>
    intro p tags
    unfold parseTagsAux
    split
    · split <;> rename_i hE
      all_goals
        refine errOnly_trans ?_ (ih _ _)
        have hh := parseTagRef_errOnly (skipHorizontalWhitespace p)
        rw [hE] at hh
        exact errOnly_trans (cursorOnly_errOnly
          (skipHorizontalWhitespace_cursorOnly p)) hh
    · exact cursorOnly_errOnly (skipHorizontalWhitespace_cursorOnly p)

theorem parseTags_errOnly (p : Parser) (tags : List TagRef) :
    ErrOnly p (parseTags p tags).1 :=
  parseTagsAux_errOnly _ p tags

attribute [irreducible] advance advanceN matchS
attribute [irreducible] skipHorizontalWhitespaceAux skipHorizontalWhitespace
attribute [irreducible] skipToEOLAux skipToEOL skipLine skipBlankLinesAux skipBlankLines
attribute [irreducible] parseIdentifierAux parseIdentifier parseSymbol
attribute [irreducible] parseHierarchicalNameAux parseHierarchicalName
attribute [irreducible] readDigits parsePeriod parseDate
attribute [irreducible] parseCategoryRef parseAccountRef parseTagRef
attribute [irreducible] scanNumberAux scanNumber parseFloatQ parseAmount parseTarget
attribute [irreducible] collectToEOLAux collectToEOL parseComment parseTagsAux parseTags
attribute [irreducible] parseSectionMarker parseMetaDirective

/-- The account an entry was stamped with. -/
def LedgerEntry.account : LedgerEntry → AccountRef
  | .transaction _ a _ _ _ _ _ _ => a
  | .assertion _ a _ _ _ _ => a

def LedgerEntry.amount : LedgerEntry → Amount
  | .transaction _ _ _ a _ _ _ _ => a
  | .assertion _ _ _ a _ _ => a

def LedgerEntry.date : LedgerEntry → String
  | .transaction d _ _ _ _ _ _ _ => d
  | .assertion d _ _ _ _ _ => d

def LedgerEntry.isTransaction : LedgerEntry → Bool
  | .transaction _ _ _ _ _ _ _ _ => true
  | .assertion _ _ _ _ _ _ => false

/-- What a single line parser may do apart from moving the cursor, appending
errors, and its section-specific effects: the section, period, meta, budget
and warnings are untouched. -/
def LineEffect (p q : Parser) : Prop :=
  q.source = p.source ∧ q.«section» = p.«section» ∧ q.currentPeriod = p.currentPeriod ∧
  q.data.meta = p.data.meta ∧ q.data.budget = p.data.budget ∧ q.warnings = p.warnings ∧
  ∃ es, q.errors = p.errors ++ es

theorem errOnly_lineEffect {p q : Parser} (h : ErrOnly p q) : LineEffect p q := by
  obtain ⟨a, b, c, d, e, f, g, i⟩ := h
  exact ⟨a, c, d, by rw [f], by rw [f], i, g⟩

theorem lineEffect_trans_errOnly {p q r : Parser} (h1 : LineEffect p q)
    (h2 : ErrOnly q r) : LineEffect p r := by
  obtain ⟨a1, c1, d1, e1, f1, i1, es1, g1⟩ := h1
  obtain ⟨a2, b2, c2, d2, e2, f2, ⟨es2, g2⟩, i2⟩ := h2
  exact ⟨a2.trans a1, c2.trans c1, d2.trans d1, by rw [f2, e1], by rw [f2, f1],
    i2.trans i1, ⟨es1 ++ es2, by rw [g2, g1, List.append_assoc]⟩⟩

theorem lineEffect_setAccount {p q : Parser} (h : ErrOnly p q) (x : Option AccountRef) :
    LineEffect p { q with currentAccount := x } := by
  obtain ⟨a, b, c, d, e, f, g, i⟩ := h
  exact ⟨a, c, d, by rw [f], by rw [f], i, g⟩

theorem lineEffect_pushLedger {p q : Parser} (h : ErrOnly p q) (e : LedgerEntry) :
    LineEffect p { q with data :=
      { q.data with ledger := q.data.ledger ++ [e] } } := by
  obtain ⟨a, b, c, d, e', f, g, i⟩ := h
  exact ⟨a, c, d, by rw [f], by rw [f], i, g⟩

theorem lineEffect_trans_cursorOnly {p q r : Parser} (h1 : LineEffect p q)
    (h2 : CursorOnly q r) : LineEffect p r :=
  lineEffect_trans_errOnly h1 (cursorOnly_errOnly h2)

theorem cursorOnly_data {p q : Parser} (h : CursorOnly p q) : q.data = p.data :=
  h.2.2.2.2.2.1

theorem cursorOnly_account {p q : Parser} (h : CursorOnly p q) :
    q.currentAccount = p.currentAccount :=
  h.2.2.2.2.1

theorem errOnly_data {p q : Parser} (h : ErrOnly p q) : q.data = p.data :=
  h.2.2.2.2.2.1

theorem errOnly_account {p q : Parser} (h : ErrOnly p q) :
    q.currentAccount = p.currentAccount :=
  h.2.2.2.2.1

/-- A line-parser leaf that only skips (possibly after emitting errors). -/
theorem errBranch_spec {p q : Parser} (hq : ErrOnly p q) :
    LineEffect p (skipLine q) ∧ (skipLine q).data.ledger = p.data.ledger ∧
    (skipLine q).currentAccount = p.currentAccount := by
  refine ⟨lineEffect_trans_cursorOnly (errOnly_lineEffect hq) (skipLine_cursorOnly q),
    ?_, ?_⟩
  · rw [cursorOnly_data (skipLine_cursorOnly q), errOnly_data hq]
  · rw [cursorOnly_account (skipLine_cursorOnly q), errOnly_account hq]

/-- A line-parser leaf that sets the current account and skips. -/
theorem headerBranch_spec {p A : Parser} (hA : ErrOnly p A) (x : Option AccountRef) :
    LineEffect p (skipLine { A with currentAccount := x }) ∧
    (skipLine { A with currentAccount := x }).data.ledger = p.data.ledger ∧
    (skipLine { A with currentAccount := x }).currentAccount = x := by
  refine ⟨lineEffect_trans_cursorOnly (lineEffect_setAccount hA x)
    (skipLine_cursorOnly _), ?_, ?_⟩
  · rw [cursorOnly_data (skipLine_cursorOnly _)]
    show A.data.ledger = p.data.ledger
    rw [errOnly_data hA]
  · rw [cursorOnly_account (skipLine_cursorOnly _)]

/-- A line-parser leaf that appends one ledger entry and skips. -/
theorem pushBranch_spec {p q : Parser} (hq : ErrOnly p q) (e : LedgerEntry) :
    LineEffect p (skipLine { q with data :=
      { q.data with ledger := q.data.ledger ++ [e] } }) ∧
    (skipLine { q with data :=
      { q.data with ledger := q.data.ledger ++ [e] } }).data.ledger =
      p.data.ledger ++ [e] ∧
    (skipLine { q with data :=
      { q.data with ledger := q.data.ledger ++ [e] } }).currentAccount =
      p.currentAccount := by
  refine ⟨lineEffect_trans_cursorOnly (lineEffect_pushLedger hq e)
    (skipLine_cursorOnly _), ?_, ?_⟩
  · rw [cursorOnly_data (skipLine_cursorOnly _)]
    show q.data.ledger ++ [e] = p.data.ledger ++ [e]
    rw [errOnly_data hq]
  · rw [cursorOnly_account (skipLine_cursorOnly _), errOnly_account hq]

/-- Master behaviour of `parseLedgerLine`: it never touches section, period,
meta, budget or warnings; errors only grow; the ledger either stays or gains
exactly one entry stamped with the current account; and the current account
changes only to a successfully parsed `@` header. -/
theorem parseLedgerLine_spec (p : Parser) :
    LineEffect p (parseLedgerLine p) ∧
    ((parseLedgerLine p).data.ledger = p.data.ledger ∨
      ∃ e, p.currentAccount = some (LedgerEntry.account e) ∧
        (parseLedgerLine p).data.ledger = p.data.ledger ++ [e]) ∧
    ((parseLedgerLine p).currentAccount = p.currentAccount ∨
      ∃ r, (parseAccountRef p).2 = some r ∧
        (parseLedgerLine p).currentAccount = some r) := by
  simp only [parseLedgerLine]
  split
  · -- '@' header line
    have hA : ErrOnly p (parseAccountRef p).1 := parseAccountRef_errOnly p
    split <;> rename_i hE
    · exact ⟨(headerBranch_spec hA _).1, Or.inl (headerBranch_spec hA _).2.1,
        Or.inr ⟨_, hE, (headerBranch_spec hA _).2.2⟩⟩
    · exact ⟨(errBranch_spec hA).1, Or.inl (errBranch_spec hA).2.1,
        Or.inl (errBranch_spec hA).2.2⟩
  · split
    · -- entry line ('?' or digit)
      split <;> rename_i hAcc
      · -- no current account: E001, nothing appended
        exact ⟨(errBranch_spec (addError_errOnly p _)).1,
          Or.inl (errBranch_spec (addError_errOnly p _)).2.1,
          Or.inl (errBranch_spec (addError_errOnly p _)).2.2⟩
      · -- date result: the failure case keeps the unverified-if unreduced
        split <;> rename_i hDate
        · have hU : CursorOnly p (if peek p = some '?' then
              (skipHorizontalWhitespace (advance p).1, true) else (p, false)).1 := by
            split
            · exact cursorOnly_trans (advance_cursorOnly p)
                (skipHorizontalWhitespace_cursorOnly _)
            · exact cursorOnly_refl p
          have hD := errOnly_trans (cursorOnly_errOnly hU) (parseDate_errOnly _)
          exact ⟨(errBranch_spec hD).1, Or.inl (errBranch_spec hD).2.1,
            Or.inl (errBranch_spec hD).2.2⟩
        · -- a date parsed; now the '?' marker cases
          split
          case' isTrue hQ =>
            have hU : CursorOnly p (skipHorizontalWhitespace (advance p).1) :=
              cursorOnly_trans (advance_cursorOnly p)
                (skipHorizontalWhitespace_cursorOnly _)
          case' isFalse hQ =>
            have hU : CursorOnly p p := cursorOnly_refl p
          all_goals
              have hD := errOnly_trans (cursorOnly_errOnly hU) (parseDate_errOnly _)
              split <;> rename_i hEq
              · -- assertion
                have hP6 := errOnly_trans hD (errOnly_trans (cursorOnly_errOnly
                    (cursorOnly_trans (skipHorizontalWhitespace_cursorOnly _)
                      (cursorOnly_trans (advance_cursorOnly _)
                        (cursorOnly_trans (advance_cursorOnly _)
                          (skipHorizontalWhitespace_cursorOnly _)))))
                    (parseAmount_errOnly _))
                split <;> rename_i hAmt
                · exact ⟨(errBranch_spec (errOnly_trans hP6 (addError_errOnly _ _))).1,
                    Or.inl (errBranch_spec (errOnly_trans hP6 (addError_errOnly _ _))).2.1,
                    Or.inl (errBranch_spec (errOnly_trans hP6 (addError_errOnly _ _))).2.2⟩
                · have hP8 := errOnly_trans hP6 (errOnly_trans (cursorOnly_errOnly
                      (skipHorizontalWhitespace_cursorOnly _))
                    (cursorOnly_errOnly (parseComment_cursorOnly _)))
                  refine ⟨(pushBranch_spec hP8 _).1,
                    Or.inr ⟨_, ?_, (pushBranch_spec hP8 _).2.1⟩,
                    Or.inl (pushBranch_spec hP8 _).2.2⟩
                  exact hAcc
              · -- transaction
                have hP4 := errOnly_trans hD (errOnly_trans (cursorOnly_errOnly
                    (skipHorizontalWhitespace_cursorOnly _)) (parseAmount_errOnly _))
                split <;> rename_i hAmt
                · exact ⟨(errBranch_spec (errOnly_trans hP4 (addError_errOnly _ _))).1,
                    Or.inl (errBranch_spec (errOnly_trans hP4 (addError_errOnly _ _))).2.1,
                    Or.inl (errBranch_spec (errOnly_trans hP4 (addError_errOnly _ _))).2.2⟩
                · have hP6 := errOnly_trans hP4 (errOnly_trans (cursorOnly_errOnly
                      (skipHorizontalWhitespace_cursorOnly _)) (parseTarget_errOnly _))
                  split <;> rename_i hTgt
                  · exact ⟨(errBranch_spec (errOnly_trans hP6 (addError_errOnly _ _))).1,
                      Or.inl (errBranch_spec (errOnly_trans hP6 (addError_errOnly _ _))).2.1,
                      Or.inl (errBranch_spec (errOnly_trans hP6 (addError_errOnly _ _))).2.2⟩
                  · have hP9 := errOnly_trans hP6 (errOnly_trans (parseTags_errOnly _ [])
                      (errOnly_trans (cursorOnly_errOnly
                        (skipHorizontalWhitespace_cursorOnly _))
                      (cursorOnly_errOnly (parseComment_cursorOnly _))))
                    refine ⟨(pushBranch_spec hP9 _).1,
                      Or.inr ⟨_, ?_, (pushBranch_spec hP9 _).2.1⟩,
                      Or.inl (pushBranch_spec hP9 _).2.2⟩
                    exact hAcc
    · -- unrecognized first character
      exact ⟨(errBranch_spec (addError_errOnly p _)).1,
        Or.inl (errBranch_spec (addError_errOnly p _)).2.1,
        Or.inl (errBranch_spec (addError_errOnly p _)).2.2⟩

/-- What `parseBudgetLine` may do: only the cursor, the errors, the current
period and at most one appended budget entry. -/
def BudgetEffect (p q : Parser) : Prop :=
  q.source = p.source ∧ q.«section» = p.«section» ∧
  q.currentAccount = p.currentAccount ∧ q.data.meta = p.data.meta ∧
  q.data.ledger = p.data.ledger ∧ q.warnings = p.warnings ∧
  (∃ es, q.errors = p.errors ++ es) ∧
  (q.data.budget = p.data.budget ∨ ∃ e, q.data.budget = p.data.budget ++ [e])

theorem budgetEffect_of_errOnly {p r : Parser} (h : ErrOnly p r) : BudgetEffect p r := by
  obtain ⟨a, b, c, d, e, f, g, i⟩ := h
  exact ⟨a, c, e, by rw [f], by rw [f], i, g, Or.inl (by rw [f])⟩

theorem budgetEffect_setPeriod {p q : Parser} (hq : ErrOnly p q) (x : Option String) :
    BudgetEffect p (skipLine { q with currentPeriod := x }) := by
  have hs := skipLine_cursorOnly { q with currentPeriod := x }
  obtain ⟨a, b, c, d, e, f, g, i⟩ := hq
  obtain ⟨a2, b2, c2, d2, e2, f2, g2, i2⟩ := hs
  refine ⟨a2.trans a, c2.trans c, e2.trans e, ?_, ?_, i2.trans i, ?_, Or.inl ?_⟩
  · rw [f2]; show q.data.meta = p.data.meta; rw [f]
  · rw [f2]; show q.data.ledger = p.data.ledger; rw [f]
  · obtain ⟨es, hes⟩ := g
    exact ⟨es, by rw [g2]; exact hes⟩
  · rw [f2]; show q.data.budget = p.data.budget; rw [f]

theorem budgetEffect_push {p q : Parser} (hq : ErrOnly p q) (e : BudgetEntry) :
    BudgetEffect p (skipLine { q with data :=
      { q.data with budget := q.data.budget ++ [e] } }) := by
  have hs := skipLine_cursorOnly { q with data :=
    { q.data with budget := q.data.budget ++ [e] } }
  obtain ⟨a, b, c, d, e', f, g, i⟩ := hq
  obtain ⟨a2, b2, c2, d2, e2, f2, g2, i2⟩ := hs
  refine ⟨a2.trans a, c2.trans c, e2.trans e', ?_, ?_, i2.trans i, ?_, Or.inr ⟨e, ?_⟩⟩
  · rw [f2]; show q.data.meta = p.data.meta; rw [f]
  · rw [f2]; show q.data.ledger = p.data.ledger; rw [f]
  · obtain ⟨es, hes⟩ := g
    exact ⟨es, by rw [g2]; exact hes⟩
  · rw [f2]; show q.data.budget ++ [e] = p.data.budget ++ [e]; rw [f]

theorem parseBudgetLine_spec (p : Parser) : BudgetEffect p (parseBudgetLine p) := by
  simp only [parseBudgetLine]
  split
  · -- period header line
    have hP : ErrOnly p (parsePeriod p).1 := parsePeriod_errOnly p
    split <;> rename_i hE
    · exact budgetEffect_setPeriod hP _
    · exact budgetEffect_of_errOnly (errOnly_trans hP
        (cursorOnly_errOnly (skipLine_cursorOnly _)))
  · split
    · split <;> rename_i hPer
      · -- no current period
        exact budgetEffect_of_errOnly (errOnly_trans (addError_errOnly p _)
          (cursorOnly_errOnly (skipLine_cursorOnly _)))
      · have hC : ErrOnly p (parseCategoryRef p).1 := parseCategoryRef_errOnly p
        split <;> rename_i hCat
        · -- category failed
          exact budgetEffect_of_errOnly (errOnly_trans hC
            (cursorOnly_errOnly (skipLine_cursorOnly _)))
        · have hA := errOnly_trans hC (errOnly_trans (cursorOnly_errOnly
            (skipHorizontalWhitespace_cursorOnly _)) (parseAmount_errOnly _))
          split <;> rename_i hAmt
          · -- amount failed
            exact budgetEffect_of_errOnly (errOnly_trans (errOnly_trans hA
              (addError_errOnly _ _)) (cursorOnly_errOnly (skipLine_cursorOnly _)))
          · -- entry appended
            exact budgetEffect_push hA _
    · -- unrecognized first character
      exact budgetEffect_of_errOnly (errOnly_trans (addError_errOnly p _)
        (cursorOnly_errOnly (skipLine_cursorOnly _)))

/-- What `parseSectionMarker` may do apart from the cursor, the errors, and
the section / period / account context: nothing — the data is untouched. -/
def SectionEffect (p q : Parser) : Prop :=
  q.source = p.source ∧ q.data = p.data ∧ q.warnings = p.warnings ∧
  (∃ es, q.errors = p.errors ++ es)

theorem sectionEffect_of_errOnly {p r : Parser} (h : ErrOnly p r) : SectionEffect p r :=
  ⟨h.1, h.2.2.2.2.2.1, h.2.2.2.2.2.2.2, h.2.2.2.2.2.2.1⟩

theorem sectionEffect_set {p q : Parser} (hq : CursorOnly p q) (s : Option SectionName) :
    SectionEffect p (skipLine { q with
      «section» := s
      currentPeriod := none
      currentAccount := none }) := by
  have hs := skipLine_cursorOnly { q with
    «section» := s
    currentPeriod := none
    currentAccount := none }
  refine ⟨?_, ?_, ?_, ⟨[], ?_⟩⟩
  · rw [hs.1]; exact hq.1
  · rw [hs.2.2.2.2.2.1]; exact hq.2.2.2.2.2.1
  · rw [hs.2.2.2.2.2.2.2]; exact hq.2.2.2.2.2.2.2
  · rw [hs.2.2.2.2.2.2.1]
    show q.errors = p.errors ++ []
    rw [hq.2.2.2.2.2.2.1, List.append_nil]

theorem parseSectionMarker_spec (p : Parser) :
    SectionEffect p (parseSectionMarker p) := by
  simp only [parseSectionMarker]
  have h1 : CursorOnly p (matchS p ['>', '>', '>']).1 := matchS_cursorOnly p _
  have h3 := cursorOnly_trans h1 (cursorOnly_trans
    (skipHorizontalWhitespace_cursorOnly _) (parseIdentifier_cursorOnly _))
  split
  · -- no '>>>'
    exact sectionEffect_of_errOnly (errOnly_trans (cursorOnly_errOnly h1)
      (errOnly_trans (addError_errOnly _ _)
        (cursorOnly_errOnly (skipLine_cursorOnly _))))
  · split
    · exact sectionEffect_set h3 _
    · split
      · exact sectionEffect_set h3 _
      · split
        · exact sectionEffect_set h3 _
        · exact sectionEffect_of_errOnly (errOnly_trans (cursorOnly_errOnly h3)
            (errOnly_trans (addError_errOnly _ _)
              (cursorOnly_errOnly (skipLine_cursorOnly _))))

theorem mem_setAdd_self (s : List String) (x : String) : x ∈ setAdd s x := by
  unfold setAdd
  split
  · assumption
  · simp

theorem mem_setAdd_of_mem {s : List String} {y : String} (h : y ∈ s) (x : String) :
    y ∈ setAdd s x := by
  unfold setAdd
  split
  · exact h
  · simp [h]

/-- Every binding of `mapSet m k v` is either the new binding's value or an
old binding. -/
theorem mapSet_values {m : List (String × String)} {k v : String}
    {kv : String × String} (h : kv ∈ mapSet m k v) : kv.2 = v ∨ kv ∈ m := by
  unfold mapSet at h
  split at h
  · obtain ⟨x, hx, hfx⟩ := List.mem_map.mp h
    by_cases hk : x.1 = k
    · rw [if_pos hk] at hfx
      left
      rw [← hfx]
    · rw [if_neg hk] at hfx
      right
      rw [← hfx]
      exact hx
  · rcases List.mem_append.mp h with h1 | h1
    · right
      exact h1
    · left
      simp at h1
      rw [h1]

/-- The META invariant: the right-hand side of every alias is a declared
commodity. -/
def AliasInv (m : Meta) : Prop :=
  ∀ kv ∈ m.aliases, kv.2 ∈ m.commodities

/-- `parseMetaDirective` preserves the alias/commodity invariant: the only
directive that touches the alias map also inserts its right-hand side into
the commodity set. -/
theorem parseMetaDirective_aliasInv (p : Parser) (h : AliasInv p.data.meta) :
    AliasInv (parseMetaDirective p).data.meta := by
  have hdata : ∀ {r : Parser}, ErrOnly p r → AliasInv r.data.meta := by
    intro r hr
    rw [errOnly_data hr]
    exact h
  have hset : ∀ {q : Parser} (m : Meta), CursorOnly p q → AliasInv m →
      AliasInv (skipLine { q with data := { q.data with meta := m } }).data.meta := by
    intro q m hq hm
    rw [cursorOnly_data (skipLine_cursorOnly _)]
    exact hm
  simp only [parseMetaDirective]
  have h2 : CursorOnly p (matchS (parseIdentifier p).1 [':']).1 :=
    cursorOnly_trans (parseIdentifier_cursorOnly p) (matchS_cursorOnly _ _)
  have h3 := cursorOnly_trans h2 (skipHorizontalWhitespace_cursorOnly _)
  have hmeta3 : (skipHorizontalWhitespace (matchS (parseIdentifier p).1 [':']).1).data.meta
      = p.data.meta := by rw [cursorOnly_data h3]
  split
  · exact hdata (errOnly_trans (cursorOnly_errOnly h2)
      (errOnly_trans (addError_errOnly _ _) (cursorOnly_errOnly (skipLine_cursorOnly _))))
  · split
    · -- commodity:
      have h4 := cursorOnly_trans h3 (parseIdentifier_cursorOnly _)
      split
      · refine hset _ h4 ?_
        intro kv hkv
        have hm4 := congrArg Ledger.meta (cursorOnly_data h4)
        simp only [hm4] at hkv ⊢
        exact mem_setAdd_of_mem (h kv hkv) _
      · exact hdata (errOnly_trans (cursorOnly_errOnly h4)
          (errOnly_trans (addError_errOnly _ _)
            (cursorOnly_errOnly (skipLine_cursorOnly _))))
    · split
      · -- alias:
        have h4 := cursorOnly_trans h3 (parseSymbol_cursorOnly _)
        have h6 := cursorOnly_trans h4 (cursorOnly_trans
          (skipHorizontalWhitespace_cursorOnly _) (matchS_cursorOnly _ ['=']))
        split
        · exact hdata (errOnly_trans (cursorOnly_errOnly h6)
            (errOnly_trans (addError_errOnly _ _)
              (cursorOnly_errOnly (skipLine_cursorOnly _))))
        · have h8 := cursorOnly_trans h6 (cursorOnly_trans
            (skipHorizontalWhitespace_cursorOnly _) (parseIdentifier_cursorOnly _))
          have hm8 := congrArg Ledger.meta (cursorOnly_data h8)
          split
          · refine hset _ h8 ?_
            intro kv hkv
            simp only [hm8] at hkv ⊢
            rcases mapSet_values hkv with hv | hv
            · rw [hv]
              exact mem_setAdd_self _ _
            · exact mem_setAdd_of_mem (h kv hv) _
          · exact hdata (errOnly_trans (cursorOnly_errOnly h8)
              (cursorOnly_errOnly (skipLine_cursorOnly _)))
      · split
        · -- untracked: aliases and commodities untouched
          have h4 := cursorOnly_trans h3 (matchS_cursorOnly _ ['@'])
          have hm4 := congrArg Ledger.meta (cursorOnly_data h4)
          split
          · exact hdata (errOnly_trans (cursorOnly_errOnly h4)
              (errOnly_trans (addError_errOnly _ _)
                (cursorOnly_errOnly (skipLine_cursorOnly _))))
          · split
            · refine hset _ (cursorOnly_trans h4 (advance_cursorOnly _)) ?_
              intro kv hkv
              have hm5 := congrArg Ledger.meta
                (cursorOnly_data (cursorOnly_trans h4 (advance_cursorOnly _)))
              simp only [hm5] at hkv ⊢
              exact h kv hkv
            · have h5 := cursorOnly_trans h4 (parseHierarchicalName_cursorOnly _)
              have hm5 := congrArg Ledger.meta (cursorOnly_data h5)
              split
              · split
                · refine hset _ (cursorOnly_trans h5 (cursorOnly_trans
                    (advance_cursorOnly _) (advance_cursorOnly _))) ?_
                  intro kv hkv
                  have hm7 := congrArg Ledger.meta (cursorOnly_data
                    (cursorOnly_trans h5 (cursorOnly_trans (advance_cursorOnly _)
                      (advance_cursorOnly _))))
                  simp only [hm7] at hkv ⊢
                  exact h kv hkv
                · refine hset _ (cursorOnly_trans h5 (advance_cursorOnly _)) ?_
                  intro kv hkv
                  have hm6 := congrArg Ledger.meta (cursorOnly_data
                    (cursorOnly_trans h5 (advance_cursorOnly _)))
                  simp only [hm6] at hkv ⊢
                  exact h kv hkv
              · refine hset _ h5 ?_
                intro kv hkv
                simp only [hm5] at hkv ⊢
                exact h kv hkv
        · exact hdata (errOnly_trans (cursorOnly_errOnly h3)
            (errOnly_trans (addError_errOnly _ _)
              (cursorOnly_errOnly (skipLine_cursorOnly _))))

/-- The alias/commodity invariant is preserved by every iteration of the
dispatcher loop. -/
theorem parseLoop_aliasInv (fuel : Nat) :
    ∀ p : Parser, AliasInv p.data.meta → AliasInv (parseLoop fuel p).data.meta := by
  induction fuel with
  | zero => exact fun p h => h
  | succ n ih =>
    intro p h
    simp only [parseLoop]
    split
    · exact h
    · split
      · rw [cursorOnly_data (skipBlankLines_cursorOnly _)]
        exact h
      · have hP2 : (skipHorizontalWhitespace (skipBlankLines p)).data = p.data := by
          rw [cursorOnly_data (skipHorizontalWhitespace_cursorOnly _),
            cursorOnly_data (skipBlankLines_cursorOnly _)]
        split
        · -- comment line
          refine ih _ ?_
          rw [cursorOnly_data (skipLine_cursorOnly _), hP2]
          exact h
        · split
          · -- section marker
            refine ih _ ?_
            rw [(parseSectionMarker_spec _).2.1, hP2]
            exact h
          · split
            · -- META
              refine ih _ (parseMetaDirective_aliasInv _ ?_)
              rw [congrArg Ledger.meta hP2]
              exact h
            · -- BUDGET
              refine ih _ ?_
              rw [(parseBudgetLine_spec _).2.2.2.1, congrArg Ledger.meta hP2]
              exact h
            · -- LEDGER
              refine ih _ ?_
              rw [(parseLedgerLine_spec _).1.2.2.2.1, congrArg Ledger.meta hP2]
              exact h
            · -- content before section marker
              refine ih _ ?_
              show AliasInv (skipLine (skipHorizontalWhitespace (skipBlankLines p))).data.meta
              rw [cursorOnly_data (skipLine_cursorOnly _), hP2]
              exact h

/-- C6: for every input, the right-hand side of every alias binding in the
returned `data.meta.aliases` is a member of `data.meta.commodities`. -/
theorem C6_alias_rhs_in_commodities (source : String) :
    ∀ kv ∈ (parse source).data.meta.aliases,
      kv.2 ∈ (parse source).data.meta.commodities := by
  intro kv hkv
  refine parseLoop_aliasInv (source.data.length + 1) (createParser source.data)
    ?_ kv hkv
  intro kv' hkv'
  simp [createParser, createLedger] at hkv'

/-- Witness for C6 at a concrete input: `alias: $ = USD` declares `USD`. -/
theorem C6_witness :
    ("$", "USD").2 ∈ (parse ">>> META\nalias: $ = USD").data.meta.commodities :=
  C6_alias_rhs_in_commodities ">>> META\nalias: $ = USD" ("$", "USD")
    (by with_unfolding_all decide)


/-- The sign field of any successfully parsed amount is decided by the first
character alone. -/
theorem parseAmount_sign (p : Parser) :
    (((parseAmount p).2.map Amount.sign).getD
      (if peek p = some '+' then some Sign.plus
        else if peek p = some '-' then some Sign.minus else none)) =
    (if peek p = some '+' then some Sign.plus
      else if peek p = some '-' then some Sign.minus else none) := by
  unfold parseAmount
  by_cases h1 : peek p = some '+'
  · simp only [if_pos h1]
    repeat' split
    all_goals simp
  · by_cases h2 : peek p = some '-'
    · simp only [if_neg h1, if_pos h2]
      repeat' split
      all_goals simp
    · simp only [if_neg h1, if_neg h2]
      repeat' split
      all_goals simp

/-- C2 (amended): the sign of a parsed amount is exactly the sign character
written at its start — `+`, `-`, or unspecified when omitted — and a ledger
transaction line whose amount omits the sign is appended as a `Transaction`
with unspecified sign. -/
theorem C2_sign_as_written :
    (∀ (p : Parser) (a : Amount), (parseAmount p).2 = some a →
      a.sign = (if peek p = some '+' then some Sign.plus
        else if peek p = some '-' then some Sign.minus else none)) ∧
    ((parse ">>> LEDGER\n@A\n2026-01-01 5 $ &X").data.ledger.map
        (fun e => (e.isTransaction, e.amount.sign))) = [(true, none)] := by
  constructor
  · intro p a h
    have key := parseAmount_sign p
    rw [h] at key
    simpa using key
  · with_unfolding_all decide

/-- C2 counterexample: the unsigned ledger line `2026-01-01 5 $ &X` is
appended as a `Transaction` whose amount has no sign, with no diagnostic —
refuting the claim that every appended transaction carries `+` or `-`. -/
theorem C2_counterexample :
    ((parse ">>> LEDGER\n@A\n2026-01-01 5 $ &X").data.ledger.map
        (fun e => (e.isTransaction, e.amount.sign))) = [(true, none)] ∧
    (parse ">>> LEDGER\n@A\n2026-01-01 5 $ &X").errors = [] := by
  with_unfolding_all decide

/-- Witness for C2 at a concrete input: `+5 $` parses with sign `+`. -/
theorem C2_witness :
    (Amount.mk (some Sign.plus) 5 "$"
        (Span.mk (Pos.mk 1 1) (Pos.mk 1 5))).sign =
      (if peek (createParser ('+' :: '5' :: ' ' :: '$' :: [])) = some '+' then
        some Sign.plus
      else if peek (createParser ('+' :: '5' :: ' ' :: '$' :: [])) = some '-' then
        some Sign.minus
      else none) :=
  C2_sign_as_written.1 (createParser ('+' :: '5' :: ' ' :: '$' :: []))
    (Amount.mk (some Sign.plus) 5 "$" (Span.mk (Pos.mk 1 1) (Pos.mk 1 5)))
    (by with_unfolding_all decide)

/-- C7 (amended): for an `untracked:` directive whose `@` is present, exactly
one pattern is stored: `@*` when `*` follows, else `@` followed by the parsed
hierarchical name — which may be empty, so a bare `@` stores the pattern `@`
— with `:*` appended when `:` and `*` follow the name. -/
theorem C7_untracked_pattern_shape (p : Parser)
    (h1 : (parseIdentifier p).2 = "untracked")
    (h2 : (matchS (parseIdentifier p).1 [':']).2 = true)
    (h3 : (matchS (skipHorizontalWhitespace (matchS (parseIdentifier p).1 [':']).1)
      ['@']).2 = true) :
    (parseMetaDirective p).data.meta.untrackedPatterns =
      p.data.meta.untrackedPatterns ++
        [if peek (matchS (skipHorizontalWhitespace
              (matchS (parseIdentifier p).1 [':']).1) ['@']).1 = some '*' then "@*"
         else if peek (parseHierarchicalName (matchS (skipHorizontalWhitespace
               (matchS (parseIdentifier p).1 [':']).1) ['@']).1).1 = some ':' ∧
             peek (advance (parseHierarchicalName (matchS (skipHorizontalWhitespace
               (matchS (parseIdentifier p).1 [':']).1) ['@']).1).1).1 = some '*' then
           "@" ++ (parseHierarchicalName (matchS (skipHorizontalWhitespace
             (matchS (parseIdentifier p).1 [':']).1) ['@']).1).2 ++ ":*"
         else
           "@" ++ (parseHierarchicalName (matchS (skipHorizontalWhitespace
             (matchS (parseIdentifier p).1 [':']).1) ['@']).1).2] := by
  unfold parseMetaDirective
  split
  rename_i p1 keyword hA
  simp only [hA] at h1 h2 h3
  split
  rename_i p2 okColon hB
  simp only [hB] at h2 h3
  rw [if_neg (by rw [h2]; simp)]
  rw [if_neg (by rw [h1]; decide), if_neg (by rw [h1]; decide), if_pos h1]
  split
  rename_i p4 okAt hC
  simp only [hA, hB, hC] at h3 ⊢
  rw [if_neg (by rw [h3]; simp)]
  have h4 : CursorOnly p p4 := by
    have hh : CursorOnly p (matchS (skipHorizontalWhitespace (matchS
        (parseIdentifier p).1 [':']).1) ['@']).1 :=
      cursorOnly_trans (cursorOnly_trans (cursorOnly_trans
        (parseIdentifier_cursorOnly p) (matchS_cursorOnly _ [':']))
        (skipHorizontalWhitespace_cursorOnly _)) (matchS_cursorOnly _ ['@'])
    simp only [hA, hB, hC] at hh
    exact hh
  split
  · -- '@*'
    rename_i hstar
    rw [cursorOnly_data (skipLine_cursorOnly _)]
    have hd := congrArg (fun d => d.meta.untrackedPatterns)
      (cursorOnly_data (cursorOnly_trans h4 (advance_cursorOnly _)))
    show (advance p4).1.data.meta.untrackedPatterns ++ ["@*"] = _
    exact congrArg (fun l => l ++ ["@*"]) hd
  · rename_i hstar
    have h5 : CursorOnly p (parseHierarchicalName p4).1 :=
      cursorOnly_trans h4 (parseHierarchicalName_cursorOnly p4)
    split
    · rename_i hcolon
      split
      · rename_i hastk
        rw [if_pos ⟨hcolon, hastk⟩, cursorOnly_data (skipLine_cursorOnly _)]
        have hd := congrArg (fun d => d.meta.untrackedPatterns) (cursorOnly_data
          (cursorOnly_trans h5 (cursorOnly_trans (advance_cursorOnly _)
            (advance_cursorOnly _))))
        show (advance (advance
          (parseHierarchicalName p4).1).1).1.data.meta.untrackedPatterns ++
          ["@" ++ (parseHierarchicalName p4).2 ++ ":*"] = _
        exact congrArg (fun l => l ++ ["@" ++ (parseHierarchicalName p4).2 ++ ":*"]) hd
      · rename_i hastk
        rw [if_neg (fun hand => hastk hand.2), cursorOnly_data (skipLine_cursorOnly _)]
        have hd := congrArg (fun d => d.meta.untrackedPatterns) (cursorOnly_data
          (cursorOnly_trans h5 (advance_cursorOnly _)))
        show (advance (parseHierarchicalName p4).1).1.data.meta.untrackedPatterns ++
          ["@" ++ (parseHierarchicalName p4).2] = _
        exact congrArg (fun l => l ++ ["@" ++ (parseHierarchicalName p4).2]) hd
    · rename_i hcolon
      rw [if_neg (fun hand => hcolon hand.1), cursorOnly_data (skipLine_cursorOnly _)]
      have hd := congrArg (fun d => d.meta.untrackedPatterns) (cursorOnly_data h5)
      show (parseHierarchicalName p4).1.data.meta.untrackedPatterns ++
        ["@" ++ (parseHierarchicalName p4).2] = _
      exact congrArg (fun l => l ++ ["@" ++ (parseHierarchicalName p4).2]) hd

/-- C7 counterexample: `untracked: @` (bare `@`, no name) silently stores the
pattern `"@"`, which is outside the three documented forms. -/
theorem C7_counterexample :
    (parse ">>> META\nuntracked: @").data.meta.untrackedPatterns = ["@"] ∧
    (parse ">>> META\nuntracked: @").errors = [] := by
  with_unfolding_all decide

/-- Witness for C7 at a concrete input: `untracked: @A:*` stores `@A:*`. -/
theorem C7_witness :
    (parseMetaDirective (createParser (String.data "untracked: @A:*"))).data.meta.untrackedPatterns =
      (createParser (String.data "untracked: @A:*")).data.meta.untrackedPatterns ++
        [if peek (matchS (skipHorizontalWhitespace
              (matchS (parseIdentifier (createParser (String.data "untracked: @A:*"))).1
                [':']).1) ['@']).1 = some '*' then "@*"
         else if peek (parseHierarchicalName (matchS (skipHorizontalWhitespace
               (matchS (parseIdentifier (createParser (String.data "untracked: @A:*"))).1
                 [':']).1) ['@']).1).1 = some ':' ∧
             peek (advance (parseHierarchicalName (matchS (skipHorizontalWhitespace
               (matchS (parseIdentifier (createParser (String.data "untracked: @A:*"))).1
                 [':']).1) ['@']).1).1).1 = some '*' then
           "@" ++ (parseHierarchicalName (matchS (skipHorizontalWhitespace
             (matchS (parseIdentifier (createParser (String.data "untracked: @A:*"))).1
               [':']).1) ['@']).1).2 ++ ":*"
         else
           "@" ++ (parseHierarchicalName (matchS (skipHorizontalWhitespace
             (matchS (parseIdentifier (createParser (String.data "untracked: @A:*"))).1
               [':']).1) ['@']).1).2] :=
  C7_untracked_pattern_shape (createParser (String.data "untracked: @A:*"))
    (by with_unfolding_all decide) (by with_unfolding_all decide)
    (by with_unfolding_all decide)

/-- C10: a META `alias:` line that reaches the `=` but whose symbol or whose
commodity identifier is empty emits no diagnostic and leaves the parsed data
(alias map and commodity set included) unchanged: the line is skipped
silently. -/
theorem C10_empty_alias_silent (p : Parser)
    (h1 : (parseIdentifier p).2 = "alias")
    (h2 : (matchS (parseIdentifier p).1 [':']).2 = true)
    (h3 : (matchS (skipHorizontalWhitespace (parseSymbol (skipHorizontalWhitespace
      (matchS (parseIdentifier p).1 [':']).1)).1) ['=']).2 = true)
    (h4 : (parseSymbol (skipHorizontalWhitespace
        (matchS (parseIdentifier p).1 [':']).1)).2 = "" ∨
      (parseIdentifier (skipHorizontalWhitespace (matchS (skipHorizontalWhitespace
        (parseSymbol (skipHorizontalWhitespace (matchS (parseIdentifier p).1 [':']).1)).1)
        ['=']).1)).2 = "") :
    (parseMetaDirective p).data = p.data ∧
    (parseMetaDirective p).errors = p.errors := by
  unfold parseMetaDirective
  split
  rename_i p1 keyword hA
  simp only [hA] at h1 h2 h3 h4
  split
  rename_i p2 okColon hB
  simp only [hB] at h2 h3 h4
  rw [if_neg (by rw [h2]; simp)]
  rw [if_neg (by rw [h1]; decide), if_pos h1]
  split
  rename_i p4 symbol hD
  simp only [hD] at h3 h4
  rcases hE : matchS (skipHorizontalWhitespace p4) ['='] with ⟨p6, okEq⟩
  rw [hE] at h3 h4
  dsimp only at h3 h4
  lift_lets
  extract_lets p5x
  have hp5 : p5x = skipHorizontalWhitespace p4 := rfl
  rw [hp5, hE]
  dsimp only
  rw [if_neg (by rw [h3]; simp)]
  rcases hF : parseIdentifier (skipHorizontalWhitespace p6) with ⟨p8, commodity⟩
  rw [hF] at h4
  dsimp only at h4
  dsimp only
  rw [if_neg (fun hand => h4.elim (fun hs => hand.1 hs) (fun hc => hand.2 hc))]
  have h8 : CursorOnly p p8 := by
    have hh : CursorOnly p (parseIdentifier (skipHorizontalWhitespace
        (matchS (skipHorizontalWhitespace (parseSymbol (skipHorizontalWhitespace
          (matchS (parseIdentifier p).1 [':']).1)).1) ['=']).1)).1 :=
      cursorOnly_trans (cursorOnly_trans (cursorOnly_trans (cursorOnly_trans
        (cursorOnly_trans (cursorOnly_trans (cursorOnly_trans
          (parseIdentifier_cursorOnly p) (matchS_cursorOnly _ [':']))
          (skipHorizontalWhitespace_cursorOnly _)) (parseSymbol_cursorOnly _))
          (skipHorizontalWhitespace_cursorOnly _)) (matchS_cursorOnly _ ['=']))
          (skipHorizontalWhitespace_cursorOnly _)) (parseIdentifier_cursorOnly _)
    simp only [hA, hB, hD, hE, hF] at hh
    exact hh
  constructor
  · rw [cursorOnly_data (skipLine_cursorOnly _)]
    exact cursorOnly_data h8
  · rw [(skipLine_cursorOnly _).2.2.2.2.2.2.1]
    exact h8.2.2.2.2.2.2.1

/-- Witness for C10 at a concrete input: `alias: = USD` (empty symbol). -/
theorem C10_witness :
    (parseMetaDirective (createParser (String.data "alias: = USD"))).data =
      (createParser (String.data "alias: = USD")).data ∧
    (parseMetaDirective (createParser (String.data "alias: = USD"))).errors =
      (createParser (String.data "alias: = USD")).errors :=
  C10_empty_alias_silent (createParser (String.data "alias: = USD"))
    (by with_unfolding_all decide) (by with_unfolding_all decide)
    (by with_unfolding_all decide) (Or.inl (by with_unfolding_all decide))

/-- C5: in the section marker parser, once `>>>` has matched, reading the
identifier `META`, `BUDGET` or `LEDGER` sets the section to that name and
resets `currentPeriod` and `currentAccount` to `none` (without touching the
data or the errors); any other identifier leaves section, period and account
unchanged and appends exactly one `E001` error diagnostic. -/
theorem C5_section_switch (p : Parser)
    (h : (matchS p ['>', '>', '>']).2 = true) :
    (parseSectionMarker p).data = p.data ∧
    ((parseIdentifier (skipHorizontalWhitespace (matchS p ['>', '>', '>']).1)).2 = "META" →
      (parseSectionMarker p).«section» = some SectionName.META ∧
      (parseSectionMarker p).currentPeriod = none ∧
      (parseSectionMarker p).currentAccount = none ∧
      (parseSectionMarker p).errors = p.errors) ∧
    ((parseIdentifier (skipHorizontalWhitespace (matchS p ['>', '>', '>']).1)).2 = "BUDGET" →
      (parseSectionMarker p).«section» = some SectionName.BUDGET ∧
      (parseSectionMarker p).currentPeriod = none ∧
      (parseSectionMarker p).currentAccount = none ∧
      (parseSectionMarker p).errors = p.errors) ∧
    ((parseIdentifier (skipHorizontalWhitespace (matchS p ['>', '>', '>']).1)).2 = "LEDGER" →
      (parseSectionMarker p).«section» = some SectionName.LEDGER ∧
      (parseSectionMarker p).currentPeriod = none ∧
      (parseSectionMarker p).currentAccount = none ∧
      (parseSectionMarker p).errors = p.errors) ∧
    ((parseIdentifier (skipHorizontalWhitespace (matchS p ['>', '>', '>']).1)).2 ≠ "META" →
      (parseIdentifier (skipHorizontalWhitespace (matchS p ['>', '>', '>']).1)).2 ≠ "BUDGET" →
      (parseIdentifier (skipHorizontalWhitespace (matchS p ['>', '>', '>']).1)).2 ≠ "LEDGER" →
      (parseSectionMarker p).«section» = p.«section» ∧
      (parseSectionMarker p).currentPeriod = p.currentPeriod ∧
      (parseSectionMarker p).currentAccount = p.currentAccount ∧
      ∃ d, (parseSectionMarker p).errors = p.errors ++ [d] ∧
        d.code = "E001" ∧ d.severity = Severity.error) := by
  have hchain : CursorOnly p
      (parseIdentifier (skipHorizontalWhitespace (matchS p ['>', '>', '>']).1)).1 :=
    cursorOnly_trans (cursorOnly_trans (matchS_cursorOnly p ['>', '>', '>'])
      (skipHorizontalWhitespace_cursorOnly _)) (parseIdentifier_cursorOnly _)
  refine ⟨(parseSectionMarker_spec p).2.1, ?_⟩
  simp only [parseSectionMarker]
  rw [if_neg (by rw [h]; simp)]
  refine ⟨?_, ?_, ?_, ?_⟩
  · intro hm
    rw [if_pos hm]
    refine ⟨?_, ?_, ?_, ?_⟩
    · rw [(skipLine_cursorOnly _).2.2.1]
    · rw [(skipLine_cursorOnly _).2.2.2.1]
    · rw [(skipLine_cursorOnly _).2.2.2.2.1]
    · rw [(skipLine_cursorOnly _).2.2.2.2.2.2.1]
      exact hchain.2.2.2.2.2.2.1
  · intro hm
    rw [if_neg (by rw [hm]; decide), if_pos hm]
    refine ⟨?_, ?_, ?_, ?_⟩
    · rw [(skipLine_cursorOnly _).2.2.1]
    · rw [(skipLine_cursorOnly _).2.2.2.1]
    · rw [(skipLine_cursorOnly _).2.2.2.2.1]
    · rw [(skipLine_cursorOnly _).2.2.2.2.2.2.1]
      exact hchain.2.2.2.2.2.2.1
  · intro hm
    rw [if_neg (by rw [hm]; decide), if_neg (by rw [hm]; decide), if_pos hm]
    refine ⟨?_, ?_, ?_, ?_⟩
    · rw [(skipLine_cursorOnly _).2.2.1]
    · rw [(skipLine_cursorOnly _).2.2.2.1]
    · rw [(skipLine_cursorOnly _).2.2.2.2.1]
    · rw [(skipLine_cursorOnly _).2.2.2.2.2.2.1]
      exact hchain.2.2.2.2.2.2.1
  · intro h1 h2 h3
    rw [if_neg h1, if_neg h2, if_neg h3]
    refine ⟨?_, ?_, ?_, ⟨createDiagnostic "E001"
      ("Unknown section '" ++
        (parseIdentifier (skipHorizontalWhitespace (matchS p ['>', '>', '>']).1)).2 ++ "'")
      Severity.error
      (spanFrom (parseIdentifier (skipHorizontalWhitespace (matchS p ['>', '>', '>']).1)).1
        (markStart (skipHorizontalWhitespace (matchS p ['>', '>', '>']).1))), ?_, rfl, rfl⟩⟩
    · rw [(skipLine_cursorOnly _).2.2.1]
      show (addError _ _).«section» = p.«section»
      simp only [addError]
      exact hchain.2.2.1
    · rw [(skipLine_cursorOnly _).2.2.2.1]
      show (addError _ _).currentPeriod = p.currentPeriod
      simp only [addError]
      exact hchain.2.2.2.1
    · rw [(skipLine_cursorOnly _).2.2.2.2.1]
      show (addError _ _).currentAccount = p.currentAccount
      simp only [addError]
      exact hchain.2.2.2.2.1
    · rw [(skipLine_cursorOnly _).2.2.2.2.2.2.1]
      show (addError _ _).errors = p.errors ++ _
      simp only [addError]
      rw [hchain.2.2.2.2.2.2.1]

/-- Witness for C5 at concrete inputs. -/
theorem C5_witness :
    (parseSectionMarker (createParser (String.data ">>> META"))).«section» =
      some SectionName.META :=
  ((C5_section_switch (createParser (String.data ">>> META"))
    (by with_unfolding_all decide)).2.1 (by with_unfolding_all decide)).1

/-- C1 (amended): a ledger line never leaves a partial entry behind — the
returned ledger is either exactly the old one or the old one extended by one
complete entry stamped with the current account, while meta, budget, warnings
and the previously emitted diagnostics are preserved (errors only grow at the
end). A failing tag, however, does not prevent the append (see the
counterexample). -/
theorem C1_no_partial_entry (p : Parser) :
    (∃ es, (parseLedgerLine p).errors = p.errors ++ es) ∧
    (parseLedgerLine p).data.meta = p.data.meta ∧
    (parseLedgerLine p).data.budget = p.data.budget ∧
    ((parseLedgerLine p).data.ledger = p.data.ledger ∨
      ∃ e, p.currentAccount = some (LedgerEntry.account e) ∧
        (parseLedgerLine p).data.ledger = p.data.ledger ++ [e]) :=
  ⟨(parseLedgerLine_spec p).1.2.2.2.2.2.2, (parseLedgerLine_spec p).1.2.2.2.1,
    (parseLedgerLine_spec p).1.2.2.2.2.1, (parseLedgerLine_spec p).2.1⟩

/-- C1 counterexample: on `2026-01-01 +5 $ &X #` (after `>>> LEDGER` and
`@A`) the tag `#` fails to parse — an `E001` diagnostic is emitted — and the
transaction is nevertheless appended to the ledger. -/
theorem C1_counterexample :
    ((parse ">>> LEDGER\n@A\n2026-01-01 +5 $ &X #").errors.map
      Diagnostic.code = ["E001"]) ∧
    (parse ">>> LEDGER\n@A\n2026-01-01 +5 $ &X #").data.ledger.length = 1 := by
  constructor
  · with_unfolding_all decide
  · with_unfolding_all decide

/-- C9: on an entry line (digit start, date parsed, account in scope),
trailing non-comment text after the entry's payload is discarded by the
end-of-line skip with no diagnostic and the entry is still appended: after an
assertion's amount the final error list is exactly the error list right after
the amount, and after a transaction's target and tags it is exactly the error
list right after the tags. -/
theorem C9_trailing_garbage (p P3 : Parser) (account : AccountRef) (date : String)
    (hCh : testOpt isDigitChar (peek p) = true)
    (hAcc : p.currentAccount = some account)
    (hDate : (parseDate p).2 = some date)
    (hP3 : skipHorizontalWhitespace (parseDate p).1 = P3) :
    (∀ (P6 : Parser) (amount : Amount),
      (peek P3 = some '=' ∧ P3.source.get? (P3.pos + 1) = some '=') →
      parseAmount (skipHorizontalWhitespace ((advance (advance P3).1).1)) =
        (P6, some amount) →
      (parseLedgerLine p).data.ledger = p.data.ledger ++
        [LedgerEntry.assertion date account false amount
          (parseComment (skipHorizontalWhitespace P6)).2
          (spanFrom (parseComment (skipHorizontalWhitespace P6)).1 (markStart p))] ∧
      (parseLedgerLine p).errors = P6.errors) ∧
    (∀ (P4 P6 : Parser) (amount : Amount) (target : Target),
      ¬(peek P3 = some '=' ∧ P3.source.get? (P3.pos + 1) = some '=') →
      parseAmount P3 = (P4, some amount) →
      parseTarget (skipHorizontalWhitespace P4) = (P6, some target) →
      (parseLedgerLine p).data.ledger = p.data.ledger ++
        [LedgerEntry.transaction date account false amount target
          (parseTags P6 []).2
          (parseComment (skipHorizontalWhitespace (parseTags P6 []).1)).2
          (spanFrom (parseComment (skipHorizontalWhitespace (parseTags P6 []).1)).1
            (markStart p))] ∧
      (parseLedgerLine p).errors = (parseTags P6 []).1.errors) := by
  have hq : ¬(peek p = some '?') := by
    intro hqq; rw [hqq] at hCh; exact absurd hCh (by decide)
  have hAt : ¬(peek p = some '@') := by
    intro hqq; rw [hqq] at hCh; exact absurd hCh (by decide)
  have h3 : ErrOnly p P3 := by
    rw [← hP3]
    exact errOnly_trans (parseDate_errOnly p)
      (cursorOnly_errOnly (skipHorizontalWhitespace_cursorOnly _))
  constructor
  · intro P6 amount hEq hAmt
    have h6 : ErrOnly p P6 := by
      have h36 : ErrOnly P3 (parseAmount (skipHorizontalWhitespace
          ((advance (advance P3).1).1))).1 :=
        errOnly_trans (cursorOnly_errOnly (cursorOnly_trans (cursorOnly_trans
          (advance_cursorOnly P3) (advance_cursorOnly _))
          (skipHorizontalWhitespace_cursorOnly _))) (parseAmount_errOnly _)
      rw [hAmt] at h36
      exact errOnly_trans h3 h36
    have h8 : ErrOnly p (parseComment (skipHorizontalWhitespace P6)).1 :=
      errOnly_trans h6 (cursorOnly_errOnly (cursorOnly_trans
        (skipHorizontalWhitespace_cursorOnly P6) (parseComment_cursorOnly _)))
    have h68 : CursorOnly P6 (parseComment (skipHorizontalWhitespace P6)).1 :=
      cursorOnly_trans (skipHorizontalWhitespace_cursorOnly P6)
        (parseComment_cursorOnly _)
    simp only [parseLedgerLine]
    rw [if_neg hAt, if_pos (Or.inr hCh), hAcc]
    dsimp only
    rw [if_neg hq]
    dsimp only
    rw [hDate]
    dsimp only
    rw [hP3, if_pos hEq, hAmt]
    dsimp only
    constructor
    · rw [congrArg Ledger.ledger (cursorOnly_data (skipLine_cursorOnly _))]
      show ((parseComment (skipHorizontalWhitespace P6)).1.data.ledger ++ _) = _
      rw [congrArg Ledger.ledger h8.2.2.2.2.2.1]
    · rw [(skipLine_cursorOnly _).2.2.2.2.2.2.1]
      show (parseComment (skipHorizontalWhitespace P6)).1.errors = P6.errors
      exact h68.2.2.2.2.2.2.1
  · intro P4 P6 amount target hNEq hAmt hTgt
    have h4 : ErrOnly P3 P4 := by
      have hh := parseAmount_errOnly P3
      rw [hAmt] at hh
      exact hh
    have h6 : ErrOnly p P6 := by
      have h46 : ErrOnly P4 (parseTarget (skipHorizontalWhitespace P4)).1 :=
        errOnly_trans (cursorOnly_errOnly (skipHorizontalWhitespace_cursorOnly _))
          (parseTarget_errOnly _)
      rw [hTgt] at h46
      exact errOnly_trans h3 (errOnly_trans h4 h46)
    have h9 : ErrOnly p
        (parseComment (skipHorizontalWhitespace (parseTags P6 []).1)).1 :=
      errOnly_trans h6 (errOnly_trans (parseTags_errOnly P6 [])
        (cursorOnly_errOnly (cursorOnly_trans
          (skipHorizontalWhitespace_cursorOnly _) (parseComment_cursorOnly _))))
    have h79 : CursorOnly (parseTags P6 []).1
        (parseComment (skipHorizontalWhitespace (parseTags P6 []).1)).1 :=
      cursorOnly_trans (skipHorizontalWhitespace_cursorOnly _)
        (parseComment_cursorOnly _)
    simp only [parseLedgerLine]
    rw [if_neg hAt, if_pos (Or.inr hCh), hAcc]
    dsimp only
    rw [if_neg hq]
    dsimp only
    rw [hDate]
    dsimp only
    rw [hP3, if_neg hNEq, hAmt]
    dsimp only
    rw [hTgt]
    dsimp only
    constructor
    · rw [congrArg Ledger.ledger (cursorOnly_data (skipLine_cursorOnly _))]
      show ((parseComment (skipHorizontalWhitespace
        (parseTags P6 []).1)).1.data.ledger ++ _) = _
      rw [congrArg Ledger.ledger h9.2.2.2.2.2.1]
    · rw [(skipLine_cursorOnly _).2.2.2.2.2.2.1]
      show (parseComment (skipHorizontalWhitespace (parseTags P6 []).1)).1.errors =
        (parseTags P6 []).1.errors
      exact h79.2.2.2.2.2.2.1

set_option maxRecDepth 2000 in
/-- Witness for C9 at the concrete transaction line `2026-01-01 5 $ &X garbage`
(with an account header in scope): the transaction is appended and no error is
emitted for the trailing garbage after target and tags. -/
theorem C9_witness :
    (parseLedgerLine { createParser (String.data "2026-01-01 5 $ &X garbage") with
      currentAccount := some (AccountRef.mk ["A"] "@A"
        (Span.mk (Pos.mk 1 1) (Pos.mk 1 1))) }).data.ledger.length = 1 ∧
    (parseLedgerLine { createParser (String.data "2026-01-01 5 $ &X garbage") with
      currentAccount := some (AccountRef.mk ["A"] "@A"
        (Span.mk (Pos.mk 1 1) (Pos.mk 1 1))) }).errors = [] := by
  have h := (C9_trailing_garbage
    { createParser (String.data "2026-01-01 5 $ &X garbage") with
      currentAccount := some (AccountRef.mk ["A"] "@A"
        (Span.mk (Pos.mk 1 1) (Pos.mk 1 1))) }
    { createParser (String.data "2026-01-01 5 $ &X garbage") with
      currentAccount := some (AccountRef.mk ["A"] "@A"
        (Span.mk (Pos.mk 1 1) (Pos.mk 1 1)))
      pos := 11
      col := 12 }
    (AccountRef.mk ["A"] "@A" (Span.mk (Pos.mk 1 1) (Pos.mk 1 1)))
    "2026-01-01"
    (by with_unfolding_all decide) (by with_unfolding_all decide)
    (by with_unfolding_all decide) (by with_unfolding_all decide)).2
    { createParser (String.data "2026-01-01 5 $ &X garbage") with
      currentAccount := some (AccountRef.mk ["A"] "@A"
        (Span.mk (Pos.mk 1 1) (Pos.mk 1 1)))
      pos := 14
      col := 15 }
    { createParser (String.data "2026-01-01 5 $ &X garbage") with
      currentAccount := some (AccountRef.mk ["A"] "@A"
        (Span.mk (Pos.mk 1 1) (Pos.mk 1 1)))
      pos := 17
      col := 18 }
    (Amount.mk none 5 "$" (Span.mk (Pos.mk 1 12) (Pos.mk 1 15)))
    (Target.category (CategoryRef.mk ["X"] "&X" (Span.mk (Pos.mk 1 16) (Pos.mk 1 18))))
    (by with_unfolding_all decide) (by with_unfolding_all rfl)
    (by with_unfolding_all rfl)
  constructor
  · rw [h.1]
    with_unfolding_all decide
  · rw [h.2]
    with_unfolding_all decide

/-- C3 (amended): after the number of a symbol-less amount and optional
horizontal whitespace, a trailing commodity identifier is accepted only when
its first character is a letter `[a-zA-Z]`; then the amount succeeds with the
alias-resolved identifier as commodity. When the character after the number
is neither a currency symbol nor a letter — including `_` and digits, which
the identifier alphabet itself allows — the amount fails with an `E002`
malformed-amount diagnostic. -/
theorem C3_trailing_commodity (p : Parser) (v : ℚ)
    (hStart : testOpt isDigitChar (peek p) = true)
    (hNoLead : includesOpt (peek p) = false)
    (hNum : (scanNumber p "" false).2 ≠ "" ∧ (scanNumber p "" false).2 ≠ ".")
    (hF : parseFloatQ (scanNumber p "" false).2.data = some v) :
    (includesOpt (peek (skipHorizontalWhitespace (scanNumber p "" false).1)) = false →
      testOpt isLetterChar (peek (skipHorizontalWhitespace (scanNumber p "" false).1)) = true →
      resolveCommodity
        (parseIdentifier (skipHorizontalWhitespace (scanNumber p "" false).1)).1
        (parseIdentifier (skipHorizontalWhitespace (scanNumber p "" false).1)).2 ≠ "" →
      (parseAmount p).2 = some (Amount.mk none v
        (resolveCommodity
          (parseIdentifier (skipHorizontalWhitespace (scanNumber p "" false).1)).1
          (parseIdentifier (skipHorizontalWhitespace (scanNumber p "" false).1)).2)
        (spanFrom (parseIdentifier (skipHorizontalWhitespace (scanNumber p "" false).1)).1
          (markStart p)))) ∧
    (includesOpt (peek (skipHorizontalWhitespace (scanNumber p "" false).1)) = false →
      testOpt isLetterChar (peek (skipHorizontalWhitespace (scanNumber p "" false).1)) = false →
      (parseAmount p).2 = none ∧
      (parseAmount p).1.errors = p.errors ++
        [malformedAmount (spanFrom (skipHorizontalWhitespace (scanNumber p "" false).1)
          (markStart p)) (scanNumber p "" false).2]) := by
  have hplus : ¬(peek p = some '+') := by
    intro hq; rw [hq] at hStart; exact absurd hStart (by decide)
  have hminus : ¬(peek p = some '-') := by
    intro hq; rw [hq] at hStart; exact absurd hStart (by decide)
  have hQerr : (skipHorizontalWhitespace (scanNumber p "" false).1).errors = p.errors :=
    (cursorOnly_trans (scanNumber_cursorOnly p "" false)
      (skipHorizontalWhitespace_cursorOnly _)).2.2.2.2.2.2.1
  have hnum2 : ¬((scanNumber p "" false).2 = "" ∨ (scanNumber p "" false).2 = ".") :=
    not_or.mpr hNum
  have hlead2 : ¬(includesOpt (peek p) = true) := by rw [hNoLead]; simp
  have hcn : strTruthy none = false := by decide
  constructor
  · intro h1 h2 hRes
    have hsym : ¬(includesOpt (peek (skipHorizontalWhitespace
        (scanNumber p "" false).1)) = true) := by rw [h1]; simp
    simp only [parseAmount]
    rw [if_neg hplus, if_neg hminus]
    dsimp only
    rw [if_neg hlead2]
    dsimp only
    rw [if_neg hnum2, hF]
    dsimp only
    rw [if_pos hcn]
    rw [if_neg hsym, if_pos h2]
    dsimp only
    rw [if_neg (by simp [strTruthy, hRes])]
    simp
  · intro h1 h2
    have hsym : ¬(includesOpt (peek (skipHorizontalWhitespace
        (scanNumber p "" false).1)) = true) := by rw [h1]; simp
    have hlet : ¬(testOpt isLetterChar (peek (skipHorizontalWhitespace
        (scanNumber p "" false).1)) = true) := by rw [h2]; simp
    simp only [parseAmount]
    rw [if_neg hplus, if_neg hminus]
    dsimp only
    rw [if_neg hlead2]
    dsimp only
    rw [if_neg hnum2, hF]
    dsimp only
    rw [if_pos hcn]
    rw [if_neg hsym, if_neg hlet]
    dsimp only
    rw [if_pos hcn]
    refine ⟨rfl, ?_⟩
    show (addError _ _).errors = _
    simp only [addError]
    rw [hQerr]

/-- Witness for C3 (amended) at the concrete amount `5 USD`. -/
theorem C3_witness :
    (parseAmount (createParser (String.data "5 USD"))).2 =
      some (Amount.mk none 5 "USD" (Span.mk (Pos.mk 1 1) (Pos.mk 1 6))) := by
  have h := (C3_trailing_commodity (createParser (String.data "5 USD")) 5
    (by with_unfolding_all decide) (by with_unfolding_all decide)
    (by with_unfolding_all decide) (by with_unfolding_all decide)).1
    (by with_unfolding_all decide) (by with_unfolding_all decide)
    (by with_unfolding_all decide)
  rw [h]
  with_unfolding_all decide

/-- C3 counterexample: the amount `5 _X` has its number followed by
whitespace and the non-empty identifier `_X` (underscore-led), yet parsing
fails with `E002` instead of succeeding with commodity `_X`. -/
theorem C3_counterexample :
    (parseIdentifier (createParser (String.data "_X"))).2 = "_X" ∧
    (parseAmount (createParser (String.data "5 _X"))).2 = none ∧
    (parseAmount (createParser (String.data "5 _X"))).1.errors.map
      Diagnostic.code = ["E002"] := by
  refine ⟨?_, ?_, ?_⟩
  · with_unfolding_all decide
  · with_unfolding_all decide
  · with_unfolding_all decide
